import Mathlib

set_option maxHeartbeats 2000000

/-!
Shallow embedding of the autofin-BE ingestion pipeline.

The definitions below are translated from the TypeScript source:
  * src/services/transaction-extractor.service.ts (Extraction Engine,
    category resolution),
  * src/services/gmail.service.ts (GmailService.processNotification,
    isUniqueConstraintError),
  * src/repositories (TransactionRepository, CategoryRepository,
    GmailOAuthRepository) modelled as operations on an explicit store,
  * src/routers/webhooks/gmail.router.ts (the Pub/Sub webhook handler).

External effects (the Gmail API, the language-model call, random UUIDs,
transient database faults) are supplied as explicit oracle values, so every
function is pure and executable.  JavaScript string-truthiness semantics
(empty string is falsy in a || b chains) are modelled explicitly.
-/

namespace Autofin

/-- `pat` starts the character list `s`. -/
def leadsWith : List Char → List Char → Bool
  | [], _ => true
  | _ :: _, [] => false
  | p :: ps, c :: cs => p == c && leadsWith ps cs

/-- `pat` occurs somewhere in the character list. -/
def occursIn (pat : List Char) : List Char → Bool
  | [] => pat.isEmpty
  | c :: cs => leadsWith pat (c :: cs) || occursIn pat cs

/-- JavaScript-style substring test: `s.includes(pat)`. -/
def containsSub (s pat : String) : Bool := occursIn pat.data s.data

/-- `s.toLowerCase()` (per-character lowering). -/
def lowerStr (s : String) : String := (s.data.map Char.toLower).asString

/-- `s.trim()`: drop leading and trailing whitespace. -/
def trimStr (s : String) : String :=
  (((s.data.dropWhile Char.isWhitespace).reverse.dropWhile Char.isWhitespace).reverse).asString

/-- JavaScript `a || b` on nullable strings: `none` and the empty string are
falsy and fall through to `b`. -/
def jsOrS (a b : Option String) : Option String :=
  match a with
  | some s => if s = "" then b else some s
  | none => b

/-- Category info passed to the Extraction Engine
(`CategoryInfo` in transaction-extractor.service.ts). -/
structure CategoryInfo where
  id : String
  name : String
  icon : Option String
deriving Repr, DecidableEq

/-- JavaScript `Map.set`: replace in place if the key exists, else append. -/
def mapSet (m : List (String × CategoryInfo)) (k : String) (v : CategoryInfo) :
    List (String × CategoryInfo) :=
  if m.any (fun p => p.1 = k) then m.map (fun p => if p.1 = k then (k, v) else p)
  else m ++ [(k, v)]

/-- `new Map(availableCategories.map(c => [c.id, c]))`. -/
def buildCategoryMap (cats : List CategoryInfo) : List (String × CategoryInfo) :=
  cats.foldl (fun m c => mapSet m c.id c) []

/-- `categoryMap.get(k)`. -/
def mapGet (m : List (String × CategoryInfo)) (k : String) : Option CategoryInfo :=
  (m.find? (fun p => p.1 = k)).map (fun p => p.2)

/-- `categoryMap.has(k)`. -/
def mapHas (m : List (String × CategoryInfo)) (k : String) : Bool :=
  (m.find? (fun p => p.1 = k)).isSome

/-- `Array.from(categoryMap.values())`. -/
def mapValues (m : List (String × CategoryInfo)) : List CategoryInfo :=
  m.map (fun p => p.2)

/-- `resolveCategoryId` from transaction-extractor.service.ts lines 18-31:
exact id match first, then case-insensitive name match, then the
Uncategorized id (or null).  An empty `value` is falsy in JS and goes
straight to the fallback. -/
def resolveCategoryId (value : String) (categoryMap : List (String × CategoryInfo))
    (uncategorized : Option CategoryInfo) : Option String :=
  if value = "" then uncategorized.map (fun c => c.id)
  else
    let trimmed := trimStr value
    if mapHas categoryMap trimmed then some trimmed
    else
      match (mapValues categoryMap).find? (fun c => lowerStr c.name = lowerStr trimmed) with
      | some c => some c.id
      | none => uncategorized.map (fun c => c.id)

/-- Transaction direction (`type: 'debit' | 'credit'`). -/
inductive TxnType where
  | debit
  | credit
deriving Repr, DecidableEq, BEq

/-- The category decision variant parsed from the model output
(after the zod transform `categoryId := o.categoryId ?? o.id ?? ''`). -/
inductive CategoryAction where
  | selectExisting (categoryId : String) (reason : Option String)
  | createNew (newCategoryName : String) (newCategoryIcon : String) (reason : Option String)
  | uncategorizedChoice (categoryId : String)
deriving Repr, DecidableEq

/-- The transaction object inside a schema-validated model output. -/
structure ModelTxn where
  amount : Rat
  type : TxnType
  merchant : Option String
  accountLastFour : Option String
  bankName : Option String
  date : Option String
  time : Option String
  remarks : Option String
  category : CategoryAction
  confidence : Rat
deriving Repr, DecidableEq

/-- A schema-validated model output (`result.output`). -/
structure ModelOutput where
  isTransaction : Bool
  transaction : Option ModelTxn
deriving Repr, DecidableEq

/-- The transaction part of `TransactionExtractionResult`. -/
structure ResultTxn where
  amount : Rat
  type : TxnType
  merchant : Option String
  accountLastFour : Option String
  bankName : Option String
  date : Option String
  time : Option String
  remarks : Option String
  confidence : Rat
  categoryId : Option String
  categoryName : Option String
  newCategory : Option (String × String)
deriving Repr, DecidableEq

/-- `TransactionExtractionResult` from transaction-extractor.service.ts. -/
structure TransactionExtractionResult where
  isTransaction : Bool
  transaction : Option ResultTxn
deriving Repr, DecidableEq

/-- The outcome of `generateText` plus output parsing: either a
schema-validated `ModelOutput` or a thrown error (caught by the service). -/
abbrev ModelCall := Except String ModelOutput

/-- Shared category-resolution tail of `extractFromEmail` / `extractFromSms`
(source lines 310-364 and 427-468): turn the parsed transaction and its
category action into the final result record. -/
def resolveExtractedTxn (txn : ModelTxn) (categoryMap : List (String × CategoryInfo))
    (uncategorized : Option CategoryInfo) : ResultTxn :=
  match txn.category with
  | .selectExisting cid _ =>
    let resolvedId := resolveCategoryId cid categoryMap uncategorized
    -- `resolvedId ? categoryMap.get(resolvedId) : null` (empty string is falsy)
    let selectedCategory :=
      match resolvedId with
      | some rid => if rid = "" then none else mapGet categoryMap rid
      | none => none
    { amount := txn.amount, type := txn.type, merchant := txn.merchant
      accountLastFour := txn.accountLastFour, bankName := txn.bankName
      date := txn.date, time := txn.time, remarks := txn.remarks
      confidence := txn.confidence
      categoryId := jsOrS (selectedCategory.map (fun c => c.id))
        (jsOrS (uncategorized.map (fun c => c.id)) none)
      categoryName := jsOrS (selectedCategory.map (fun c => c.name))
        (jsOrS (uncategorized.map (fun c => c.name)) none)
      newCategory := none }
  | .uncategorizedChoice cid =>
    let resolvedId := resolveCategoryId cid categoryMap uncategorized
    let selectedCategory :=
      match resolvedId with
      | some rid => if rid = "" then none else mapGet categoryMap rid
      | none => none
    { amount := txn.amount, type := txn.type, merchant := txn.merchant
      accountLastFour := txn.accountLastFour, bankName := txn.bankName
      date := txn.date, time := txn.time, remarks := txn.remarks
      confidence := txn.confidence
      categoryId := jsOrS (selectedCategory.map (fun c => c.id))
        (jsOrS (uncategorized.map (fun c => c.id)) none)
      categoryName := jsOrS (selectedCategory.map (fun c => c.name))
        (jsOrS (uncategorized.map (fun c => c.name)) (some "Uncategorized"))
      newCategory := none }
  | .createNew newName newIcon _ =>
    { amount := txn.amount, type := txn.type, merchant := txn.merchant
      accountLastFour := txn.accountLastFour, bankName := txn.bankName
      date := txn.date, time := txn.time, remarks := txn.remarks
      confidence := txn.confidence
      categoryId := none
      categoryName := some newName
      newCategory := some (newName, newIcon) }

/-- `TransactionExtractorService.extractFromEmail` (source lines 265-374).
The model call outcome is supplied as an oracle; every throw inside the
`try` block (model call or parsing) arrives here as `.error`. -/
def extractFromEmail (availableCategories : List CategoryInfo)
    (modelCall : ModelCall) : TransactionExtractionResult :=
  let categoryMap := buildCategoryMap availableCategories
  let uncategorized := availableCategories.find? (fun c => lowerStr c.name = "uncategorized")
  let categoryIds := availableCategories.map (fun c => c.id)
  if categoryIds.length = 0 then { isTransaction := false, transaction := none }
  else
    match modelCall with
    | .error _ => { isTransaction := false, transaction := none }
    | .ok extracted =>
      if !extracted.isTransaction then { isTransaction := false, transaction := none }
      else
        match extracted.transaction with
        | none => { isTransaction := false, transaction := none }
        | some txn =>
          { isTransaction := true
            transaction := some (resolveExtractedTxn txn categoryMap uncategorized) }

/-- `TransactionExtractorService.extractFromSms` (source lines 383-476);
the source duplicates the email logic for SMS input. -/
def extractFromSms (availableCategories : List CategoryInfo)
    (modelCall : ModelCall) : TransactionExtractionResult :=
  let categoryMap := buildCategoryMap availableCategories
  let uncategorized := availableCategories.find? (fun c => lowerStr c.name = "uncategorized")
  let categoryIds := availableCategories.map (fun c => c.id)
  if categoryIds.length = 0 then { isTransaction := false, transaction := none }
  else
    match modelCall with
    | .error _ => { isTransaction := false, transaction := none }
    | .ok extracted =>
      if !extracted.isTransaction then { isTransaction := false, transaction := none }
      else
        match extracted.transaction with
        | none => { isTransaction := false, transaction := none }
        | some txn =>
          { isTransaction := true
            transaction := some (resolveExtractedTxn txn categoryMap uncategorized) }

/-- `TransactionExtractorService.isValidTransaction` (source lines 519-526). -/
def isValidTransaction (result : TransactionExtractionResult) : Bool :=
  match result.transaction with
  | none => false
  | some t =>
    result.isTransaction && decide (0 < t.amount) &&
      (t.type == TxnType.debit || t.type == TxnType.credit)

end Autofin

namespace Autofin

/-! ## Persistence model

The drizzle tables (src/db/schema/index.ts) become explicit row lists.
`transactions.emailId` carries a UNIQUE constraint (schema line 115); the
primary keys are unique as well.  Stringification of numeric columns
(`amount.toString()`, `confidence.toString()`) and JS `Date` parsing are
kept as the underlying values: no claim depends on their formatting. -/

/-- A row of the `transactions` table, with the fields
`GmailService.processNotification` writes (source lines 463-480). -/
structure TransactionRow where
  id : String
  userId : String
  categoryId : Option String
  amount : Rat
  type : TxnType
  currency : String
  merchant : Option String
  accountNumber : Option String
  bankName : Option String
  transactionDateRaw : Option String
  remarks : Option String
  emailId : Option String
  rawEmailContent : String
  aiConfidence : Rat
  isAiCreated : Bool
deriving Repr, DecidableEq

/-- A row of the `categories` table. -/
structure CategoryRow where
  id : String
  userId : Option String
  name : String
  icon : Option String
  isDefault : Bool
  isAiCreated : Bool
deriving Repr, DecidableEq

/-- The database state the pipeline reads and writes. -/
structure Store where
  transactions : List TransactionRow
  categories : List CategoryRow
deriving Repr, DecidableEq

/-- `TransactionRepository.findByEmailId` (duplicate detection). -/
def findByEmailId (st : Store) (emailId : String) : Option TransactionRow :=
  st.transactions.find? (fun t => t.emailId = some emailId)

/-- The error message Postgres raises on the `transactions.email_id`
uniqueness violation. -/
def uniqueViolationMsg : String :=
  "duplicate key value violates unique constraint transactions_email_id_unique"

/-- `TransactionRepository.create`: insert one row, failing on a primary-key
or external-message-id uniqueness violation. -/
def transactionCreate (st : Store) (row : TransactionRow) : Except String Store :=
  if st.transactions.any (fun t => t.id = row.id) then
    Except.error "duplicate key value violates unique constraint transactions_pkey"
  else
    match row.emailId with
    | some e =>
      if st.transactions.any (fun t => t.emailId = some e) then
        Except.error uniqueViolationMsg
      else Except.ok { st with transactions := st.transactions ++ [row] }
    | none => Except.ok { st with transactions := st.transactions ++ [row] }

/-- `CategoryRepository.create`: insert one category row. -/
def categoryCreate (st : Store) (row : CategoryRow) : Except String Store :=
  if st.categories.any (fun c => c.id = row.id) then
    Except.error "duplicate key value violates unique constraint categories_pkey"
  else Except.ok { st with categories := st.categories ++ [row] }

/-- Lexicographic comparison on character lists (by code point). -/
def charListLe : List Char → List Char → Bool
  | [], _ => true
  | _ :: _, [] => false
  | c :: cs, d :: ds =>
    if c.toNat < d.toNat then true
    else if d.toNat < c.toNat then false
    else charListLe cs ds

/-- Lexicographic string comparison (the SQL name ordering). -/
def strLeB (a b : String) : Bool := charListLe a.data b.data

/-- Insertion step for `ORDER BY name`. -/
def insertByName (c : CategoryRow) : List CategoryRow → List CategoryRow
  | [] => [c]
  | d :: ds => if strLeB c.name d.name then c :: d :: ds else d :: insertByName c ds

/-- Stable sort by category name (the SQL `orderBy(categories.name)`). -/
def sortByName (l : List CategoryRow) : List CategoryRow := l.foldr insertByName []

/-- `CategoryRepository.findAllForUser`: predefined categories
(userId null) plus the user's own, ordered by name. -/
def findAllForUser (st : Store) (userId : String) : List CategoryRow :=
  sortByName (st.categories.filter (fun c => decide (c.userId = none ∨ c.userId = some userId)))

/-- `CategoryRepository.findByNameForUser` (exact name, predefined or own,
limit 1). -/
def findByNameForUser (st : Store) (name userId : String) : Option CategoryRow :=
  st.categories.find? (fun c => decide (c.name = name ∧ (c.userId = none ∨ c.userId = some userId)))

/-- `GmailService.isUniqueConstraintError` (source lines 789-800). -/
def isUniqueConstraintError (msg : String) : Bool :=
  let m := lowerStr msg
  containsSub m "unique constraint" || containsSub m "duplicate key" || containsSub m "23505"

/-! ## Notification processing -/

/-- The Pub/Sub notification payload. -/
structure GmailNotification where
  emailAddress : String
  historyId : String
deriving Repr, DecidableEq

/-- One `GmailHistory` entry.  Only `messagesAdded` drives processing; the
other three lists are log-only in the source (lines 528-548). -/
structure HistoryEntry where
  messagesAdded : List String
  messagesDeleted : List String
  labelsAdded : List (String × List String)
  labelsRemoved : List (String × List String)
deriving Repr, DecidableEq

/-- A fetched Gmail message, with headers/body already extracted
(`getMessageHeaders` / `getMessageBody` walk the MIME part tree and
base64-decode; no claim concerns that plumbing, so the extracted values
are carried directly). -/
structure FetchedMessage where
  threadId : String
  labelIds : List String
  snippet : String
  subject : Option String
  fromAddr : Option String
  body : String
deriving Repr, DecidableEq

/-- The outcome of calling `transactionExtractor.extractFromEmail`:
`getAIModel()` runs before the internal try/catch and can reject the whole
call; otherwise the internal model-call outcome is handled inside. -/
inductive ExtractCall where
  | throwsPre (e : String)
  | model (call : ModelCall)

/-- Per-message oracle: outcomes of the external effects touched while
processing one message. -/
structure MsgOracle where
  fetch : Except String FetchedMessage
  extract : ExtractCall
  newTxnId : String
  newCatId : String
  catCreateFault : Option String
  txnCreateFault : Option String
  markAsReadOk : Bool

/-- How the try-block body of the per-message loop exits. -/
inductive BodyStep where
  | dupPre
  | raceDup
  | completed
  | thrown (e : String)
deriving Repr, DecidableEq

/-- Observability trace for one message. -/
structure MsgTrace where
  extractorInvoked : Bool
  markAsReadAttempted : Bool
deriving Repr, DecidableEq

/-- `body.substring(0, n)`. -/
def substrTo (s : String) (n : Nat) : String := (s.toList.take n).asString

/-- Category handling for a valid extraction (source lines 412-445): keep
the extractor-selected id, or create the AI-suggested category, falling
back to a name lookup when creation throws (and to the extractor value
when that also finds nothing). -/
def categoryStep (userId : String) (st : Store) (o : MsgOracle) (txn : ResultTxn) :
    Store × Option String :=
  match txn.newCategory with
  | none => (st, txn.categoryId)
  | some (catName, catIcon) =>
    let newCatRow : CategoryRow :=
      { id := o.newCatId
        userId := some userId
        name := catName
        icon := some catIcon
        isDefault := false
        isAiCreated := true }
    let createAttempt : Except String (Store × String) :=
      match o.catCreateFault with
      | some e => Except.error e
      | none =>
        match categoryCreate st newCatRow with
        | .ok st2 => Except.ok (st2, o.newCatId)
        | .error e => Except.error e
    match createAttempt with
    | .ok (st2, cid) => (st2, some cid)
    | .error _ =>
      match findByNameForUser st catName userId with
      | some existing => (st, some existing.id)
      | none => (st, txn.categoryId)

/-- The transaction row the loop inserts (source lines 463-480). -/
def buildTransactionRow (userId messageId : String) (o : MsgOracle) (bodyText : String)
    (categoryId : Option String) (txn : ResultTxn) : TransactionRow :=
  { id := o.newTxnId
    userId := userId
    categoryId := categoryId
    amount := txn.amount
    type := txn.type
    currency := "NPR"
    merchant := txn.merchant
    accountNumber := txn.accountLastFour
    bankName := txn.bankName
    transactionDateRaw := txn.date
    remarks := txn.remarks
    emailId := some messageId
    rawEmailContent := substrTo bodyText 10000
    aiConfidence := txn.confidence
    isAiCreated := true }

/-- STEP 3 of the loop body (source lines 406-498): persist when the
extraction is a valid transaction, classifying an insert failure as
race-skip (unique-constraint) or rethrow. -/
def saveStep (userId messageId : String) (st : Store) (o : MsgOracle) (bodyText : String)
    (extractionResult : TransactionExtractionResult) : Store × Option BodyStep :=
  if isValidTransaction extractionResult then
    match extractionResult.transaction with
    | none => (st, none)
    | some txn =>
      let cs := categoryStep userId st o txn
      let row := buildTransactionRow userId messageId o bodyText cs.2 txn
      let insertAttempt : Except String Store :=
        match o.txnCreateFault with
        | some e => Except.error e
        | none => transactionCreate cs.1 row
      match insertAttempt with
      | .ok st2 => (st2, none)
      | .error e =>
        if isUniqueConstraintError e then (cs.1, some BodyStep.raceDup)
        else (cs.1, some (BodyStep.thrown e))
  else (st, none)

/-- The try-block body of the per-message loop in
`GmailService.processNotification` (source lines 367-511): duplicate
check, fetch, extraction, category handling, insert, mark-as-read. -/
def processMessage (userId : String) (catsForAI : List CategoryInfo)
    (st : Store) (messageId : String) (o : MsgOracle) : Store × BodyStep × MsgTrace :=
  match findByEmailId st messageId with
  | some _ => (st, BodyStep.dupPre, { extractorInvoked := false, markAsReadAttempted := false })
  | none =>
    match o.fetch with
    | .error e => (st, BodyStep.thrown e, ⟨false, false⟩)
    | .ok message =>
      match o.extract with
      | .throwsPre e => (st, BodyStep.thrown e, ⟨true, false⟩)
      | .model call =>
        let ss := saveStep userId messageId st o message.body (extractFromEmail catsForAI call)
        match ss.2 with
        | some step => (ss.1, step, ⟨true, false⟩)
        | none => (ss.1, BodyStep.completed, ⟨true, message.labelIds.contains "UNREAD"⟩)

/-- Mutable per-batch result and trace state. -/
structure BatchAcc where
  store : Store
  processedIds : List String
  processedCount : Nat
  failedCount : Nat
  errors : List (String × String)
  extractedIds : List String
  markedIds : List String
deriving Repr, DecidableEq

/-- One iteration of the `messagesAdded` loop: the in-batch dedup set, the
try body, and the catch that classifies 404/notFound as skip and tallies
everything else (source lines 358-524). -/
def stepMessage (userId : String) (catsForAI : List CategoryInfo)
    (oracle : String → MsgOracle) (acc : BatchAcc) (messageId : String) : BatchAcc :=
  if acc.processedIds.contains messageId then acc
  else
    let acc0 := { acc with processedIds := acc.processedIds ++ [messageId] }
    let out := processMessage userId catsForAI acc0.store messageId (oracle messageId)
    let acc1 : BatchAcc :=
      { acc0 with
        store := out.1
        extractedIds :=
          if out.2.2.extractorInvoked then acc0.extractedIds ++ [messageId]
          else acc0.extractedIds
        markedIds :=
          if out.2.2.markAsReadAttempted then acc0.markedIds ++ [messageId]
          else acc0.markedIds }
    match out.2.1 with
    | .dupPre => { acc1 with processedCount := acc1.processedCount + 1 }
    | .raceDup => acc1
    | .completed => { acc1 with processedCount := acc1.processedCount + 1 }
    | .thrown e =>
      if containsSub e "404" || containsSub e "notFound" then acc1
      else
        { acc1 with
          failedCount := acc1.failedCount + 1
          errors := acc1.errors ++ [(messageId, e)] }

/-- `ProcessNotificationResult` from gmail.service.ts. -/
structure ProcessNotificationResult where
  success : Bool
  historyId : String
  processedCount : Nat
  failedCount : Nat
  errors : List (String × String)
deriving Repr, DecidableEq

/-- The result of a `processNotification` run plus the final store and the
observability trace. -/
structure BatchOutcome where
  result : ProcessNotificationResult
  store : Store
  extractedIds : List String
  markedIds : List String
deriving Repr, DecidableEq

/-- `storedHistoryId || notification.historyId` (JS falsiness: null or
empty string falls back). -/
def historyIdToUse (storedHistoryId : Option String) (n : GmailNotification) : String :=
  match storedHistoryId with
  | some s => if s = "" then n.historyId else s
  | none => n.historyId

/-- `GmailService.processNotification` (source lines 283-559).
`getHistoryOutcome` is the oracle for `getHistory(userId, historyIdToUse)`;
`oracle` supplies each message's external outcomes. -/
def processNotification (userId : String) (notification : GmailNotification)
    (storedHistoryId : Option String) (st : Store)
    (getHistoryOutcome : String → Except String (List HistoryEntry))
    (oracle : String → MsgOracle) : BatchOutcome :=
  match getHistoryOutcome (historyIdToUse storedHistoryId notification) with
  | .error e =>
    if containsSub e "404" || containsSub e "notFound" then
      { result :=
          { success := true
            historyId := notification.historyId
            processedCount := 0
            failedCount := 0
            errors := [("history", "History ID expired or not found")] }
        store := st
        extractedIds := []
        markedIds := [] }
    else if containsSub e "401" || containsSub e "invalid_grant" then
      { result :=
          { success := false
            historyId := notification.historyId
            processedCount := 0
            failedCount := 0
            errors := [("auth", "OAuth token expired or revoked")] }
        store := st
        extractedIds := []
        markedIds := [] }
    else
      { result :=
          { success := false
            historyId := notification.historyId
            processedCount := 0
            failedCount := 0
            errors := [("history", e)] }
        store := st
        extractedIds := []
        markedIds := [] }
  | .ok history =>
    let availableCategories := findAllForUser st userId
    let catsForAI := availableCategories.map (fun c => CategoryInfo.mk c.id c.name c.icon)
    let acc0 : BatchAcc := ⟨st, [], 0, 0, [], [], []⟩
    let acc := history.foldl
      (fun a entry => entry.messagesAdded.foldl (stepMessage userId catsForAI oracle) a) acc0
    let success := !(decide (acc.processedCount = 0) && decide (0 < acc.failedCount))
    { result :=
        { success := success
          historyId := notification.historyId
          processedCount := acc.processedCount
          failedCount := acc.failedCount
          errors := acc.errors }
      store := acc.store
      extractedIds := acc.extractedIds
      markedIds := acc.markedIds }

/-! ## Webhook handler -/

/-- A `gmail_oauth_tokens` row (the fields the webhook touches). -/
structure GmailOAuthToken where
  userId : String
  emailAddress : String
  historyId : Option String
deriving Repr, DecidableEq

/-- The OAuth-token table. -/
structure TokenStore where
  rows : List GmailOAuthToken
deriving Repr, DecidableEq

/-- `GmailOAuthRepository.findByEmailAddress` (limit 1). -/
def findByEmailAddress (ts : TokenStore) (emailAddress : String) : Option GmailOAuthToken :=
  ts.rows.find? (fun t => t.emailAddress = emailAddress)

/-- `GmailOAuthRepository.updateHistoryIdByEmail`: unconditionally set the
stored cursor for every row with this address. -/
def updateHistoryIdByEmail (ts : TokenStore) (emailAddress historyId : String) : TokenStore :=
  { rows := ts.rows.map (fun t =>
      if t.emailAddress = emailAddress then { t with historyId := some historyId } else t) }

/-- How far an inbound webhook request decodes
(gmail.router.ts lines 36-53): `invalidJson` = the request body is not
JSON (`c.req.json()` throws), `missingData` = `!body.message ||
!body.message.data`, `undecodable` = `JSON.parse` of the base64-decoded
`message.data` throws, `notif` = a decoded notification. -/
inductive WebhookPayload where
  | invalidJson
  | missingData
  | undecodable
  | notif (n : GmailNotification)
deriving Repr, DecidableEq

/-- Collaborator outcomes for one webhook invocation. -/
structure WebhookDeps where
  lookupFault : Option String
  store : Store
  getHistoryOutcome : String → Except String (List HistoryEntry)
  oracle : String → MsgOracle

/-- What one webhook invocation produced. -/
structure WebhookRun where
  status : Nat
  tokens : TokenStore
  store : Store
  procResult : Option ProcessNotificationResult
  cursorUpdated : Bool

/-- The POST /webhooks/gmail handler (gmail.router.ts lines 36-137):
structure check (400), token lookup (DB error and missing token both
acknowledged with 200), `processNotification`, cursor update on
`result.success`, and the outer catch that acknowledges every remaining
failure with 200. -/
def webhookPost (payload : WebhookPayload) (ts : TokenStore) (deps : WebhookDeps) : WebhookRun :=
  match payload with
  | .invalidJson => ⟨200, ts, deps.store, none, false⟩
  | .missingData => ⟨400, ts, deps.store, none, false⟩
  | .undecodable => ⟨200, ts, deps.store, none, false⟩
  | .notif n =>
    match deps.lookupFault with
    | some _ => ⟨200, ts, deps.store, none, false⟩
    | none =>
      match findByEmailAddress ts n.emailAddress with
      | none => ⟨200, ts, deps.store, none, false⟩
      | some token =>
        let outcome := processNotification token.userId n token.historyId deps.store
          deps.getHistoryOutcome deps.oracle
        if outcome.result.success then
          ⟨200, updateHistoryIdByEmail ts n.emailAddress outcome.result.historyId,
            outcome.store, some outcome.result, true⟩
        else
          ⟨200, ts, outcome.store, some outcome.result, false⟩

/-- Numeric reading of a stored history cursor (Gmail history ids are
decimal integer strings). -/
def cursorNum (s : Option String) : Nat :=
  (s.getD "").data.foldl (fun n c => n * 10 + (c.toNat - 48)) 0

end Autofin

namespace Autofin

/-- The batch accumulator `processNotification` ends with after folding the
message loop over `history` (same fold, named for reasoning). -/
def batchAccOf (userId : String) (st : Store) (oracle : String → MsgOracle)
    (history : List HistoryEntry) : BatchAcc :=
  let catsForAI := (findAllForUser st userId).map (fun c => CategoryInfo.mk c.id c.name c.icon)
  history.foldl
    (fun a entry => entry.messagesAdded.foldl (stepMessage userId catsForAI oracle) a)
    ⟨st, [], 0, 0, [], [], []⟩

/-- A message whose external interactions all succeed: the fetch returns a
message, the model call parses to a valid transaction, and no insert fault
is injected. -/
def goodMsg (catsForAI : List CategoryInfo) (o : MsgOracle) : Prop :=
  (∃ msg, o.fetch = Except.ok msg) ∧
  (∃ call, o.extract = ExtractCall.model call ∧
    isValidTransaction (extractFromEmail catsForAI call) = true) ∧
  o.txnCreateFault = none

/-! ## Concrete fixtures (used by witnesses and counterexamples) -/

/-- A seeded default category. -/
def exDefaultFood : CategoryRow := ⟨"cat-food", none, "Food and Dining", some "f", true, false⟩

/-- The seeded default Uncategorized category. -/
def exDefaultUncat : CategoryRow := ⟨"cat-unc", none, "Uncategorized", some "q", true, false⟩

/-- A store seeded with the default categories and no transactions. -/
def exStore : Store := ⟨[], [exDefaultFood, exDefaultUncat]⟩

/-- A fetched unread bank email. -/
def exMsg : FetchedMessage :=
  ⟨"t1", ["UNREAD"], "snip", some "Txn alert", some "bank", "txn body"⟩

/-- A model output that selects the existing food category. -/
def exTxn : ModelTxn :=
  ⟨(5004 : Rat), .debit, some "Merchant", some "1234", some "Nabil Bank",
    some "2026-02-01", some "11:00:00", some "XP-REF",
    .selectExisting "cat-food" none, (1 : Rat)⟩

/-- A valid-transaction model output. -/
def exOut : ModelOutput := ⟨true, some exTxn⟩

/-- An all-good per-message oracle. -/
def exGoodOracle (mid : String) : MsgOracle :=
  ⟨.ok exMsg, .model (.ok exOut), "txn-" ++ mid, "cat-" ++ mid, none, none, true⟩

/-- A notification with cursor 500. -/
def exNotif : GmailNotification := ⟨"a@x", "500"⟩

/-- A one-row token table for the notified address. -/
def exTokens : TokenStore := ⟨[⟨"u1", "a@x", none⟩]⟩

/-- Webhook collaborators: empty history, all-good message oracle. -/
def exDeps : WebhookDeps := ⟨none, exStore, fun _ => Except.ok [], exGoodOracle⟩

/-- A model output asking to create a new Fitness category. -/
def exNewCatTxn : ModelTxn :=
  ⟨(100 : Rat), .debit, some "Gym", none, some "Bank", none, none, some "gym fee",
    .createNew "Fitness" "g" none, (1 : Rat)⟩

/-- Oracle whose category creation throws a transient error while no
matching category name exists for the user. -/
def exNewCatFailOracle (mid : String) : MsgOracle :=
  ⟨.ok exMsg, .model (.ok ⟨true, some exNewCatTxn⟩), "txn-" ++ mid, "cat-" ++ mid,
    some "connection terminated unexpectedly", none, true⟩

/-- Oracle whose message fetch fails with a 404 (message deleted). -/
def exFetch404Oracle (mid : String) : MsgOracle :=
  ⟨Except.error "Gmail API error: 404 Not Found", .model (.ok exOut),
    "txn-" ++ mid, "cat-" ++ mid, none, none, true⟩

/-- Oracle whose model call throws (extraction failure swallowed by the
extractor). -/
def exModelFailOracle (mid : String) : MsgOracle :=
  ⟨.ok exMsg, .model (Except.error "model call failed"), "txn-" ++ mid, "cat-" ++ mid,
    none, none, true⟩

/-- Oracle whose insert hits the emailId uniqueness violation (a concurrent
handler inserted the same message between check and insert). -/
def exRaceOracle (mid : String) : MsgOracle :=
  ⟨.ok exMsg, .model (.ok exOut), "txn-" ++ mid, "cat-" ++ mid, none,
    some uniqueViolationMsg, true⟩

/-- The category list handed to the extractor for `exStore` (what
`findAllForUser` + the mapping to `CategoryInfo` produces). -/
def exCats : List CategoryInfo :=
  [⟨"cat-food", "Food and Dining", some "f"⟩, ⟨"cat-unc", "Uncategorized", some "q"⟩]

/-- The empty batch accumulator over `exStore`. -/
def exAcc : BatchAcc := ⟨exStore, [], 0, 0, [], [], []⟩

/-- The extractor result for `exOut` against `exCats`. -/
def exResolvedTxn : ResultTxn :=
  ⟨(5004 : Rat), .debit, some "Merchant", some "1234", some "Nabil Bank",
    some "2026-02-01", some "11:00:00", some "XP-REF", (1 : Rat),
    some "cat-food", some "Food and Dining", none⟩

/-- Oracle that is all-good for every message except m2, whose model call
throws (the extractor swallows it). -/
def exMixedOracle (mid : String) : MsgOracle :=
  if mid = "m2" then exModelFailOracle mid else exGoodOracle mid

/-- Oracle that is all-good except for m2, whose extraction call itself
throws (before the extractor's internal try). -/
def exThrowOracle (mid : String) : MsgOracle :=
  if mid = "m2" then
    ⟨.ok exMsg, .throwsPre "ai model init failed", "txn-" ++ mid, "cat-" ++ mid,
      none, none, true⟩
  else exGoodOracle mid

/-- An already-persisted transaction row for message m1. -/
def exDupRow : TransactionRow :=
  ⟨"t0", "u1", some "cat-food", (5 : Rat), .debit, "NPR", none, none, none,
    none, none, some "m1", "raw", (1 : Rat), true⟩

/-- A store that already holds the transaction for message m1. -/
def exDupStore : Store := ⟨[exDupRow], exStore.categories⟩

/-! ## Helper lemmas -/

theorem categoryCreate_transactions {st : Store} {row : CategoryRow} {st2 : Store}
    (h : categoryCreate st row = Except.ok st2) : st2.transactions = st.transactions := by
  unfold categoryCreate at h
  split at h
  · exact Except.noConfusion h
  · injection h with h2
    subst h2
    rfl

theorem categoryStep_transactions (userId : String) (st : Store) (o : MsgOracle)
    (txn : ResultTxn) : (categoryStep userId st o txn).1.transactions = st.transactions := by
  rcases hnc : txn.newCategory with _ | ⟨catName, catIcon⟩
  · simp [categoryStep, hnc]
  · rcases hcf : o.catCreateFault with _ | e
    · rcases hcc : categoryCreate st
        ⟨o.newCatId, some userId, catName, some catIcon, false, true⟩ with e2 | st2
      · rcases hfn : findByNameForUser st catName userId with _ | existing
        · simp [categoryStep, hnc, hcf, hcc, hfn]
        · simp [categoryStep, hnc, hcf, hcc, hfn]
      · simp only [categoryStep, hnc, hcf, hcc]
        exact categoryCreate_transactions hcc
    · rcases hfn : findByNameForUser st catName userId with _ | existing
      · simp [categoryStep, hnc, hcf, hfn]
      · simp [categoryStep, hnc, hcf, hfn]

theorem transactionCreate_ok_transactions {st : Store} {row : TransactionRow} {st2 : Store}
    (h : transactionCreate st row = Except.ok st2) :
    st2.transactions = st.transactions ++ [row] := by
  unfold transactionCreate at h
  split at h
  · exact Except.noConfusion h
  · split at h
    · split at h
      · exact Except.noConfusion h
      · injection h with h2
        subst h2
        rfl
    · injection h with h2
      subst h2
      rfl

theorem saveStep_transactions (userId messageId : String) (st : Store) (o : MsgOracle)
    (bodyText : String) (er : TransactionExtractionResult) :
    ∃ l, (saveStep userId messageId st o bodyText er).1.transactions =
      st.transactions ++ l := by
  by_cases hv : isValidTransaction er = true
  · rcases htx : er.transaction with _ | txn
    · exact ⟨[], by simp [saveStep, hv, htx]⟩
    · rcases hcf : o.txnCreateFault with _ | e
      · rcases hcc : transactionCreate (categoryStep userId st o txn).1
          (buildTransactionRow userId messageId o bodyText
            (categoryStep userId st o txn).2 txn) with e2 | st2
        · rcases hue : isUniqueConstraintError e2 with _ | _
          · refine ⟨[], ?_⟩
            simp [saveStep, hv, htx, hcf, hcc, hue, categoryStep_transactions]
          · refine ⟨[], ?_⟩
            simp [saveStep, hv, htx, hcf, hcc, hue, categoryStep_transactions]
        · refine ⟨[buildTransactionRow userId messageId o bodyText
            (categoryStep userId st o txn).2 txn], ?_⟩
          simp only [saveStep, hv, htx, hcf, if_true]
          rw [hcc]
          rw [transactionCreate_ok_transactions hcc, categoryStep_transactions]
      · rcases hue : isUniqueConstraintError e with _ | _
        · refine ⟨[], ?_⟩
          simp [saveStep, hv, htx, hcf, hue, categoryStep_transactions]
        · refine ⟨[], ?_⟩
          simp [saveStep, hv, htx, hcf, hue, categoryStep_transactions]
  · exact ⟨[], by simp [saveStep, hv]⟩

theorem processMessage_transactions (userId : String) (catsForAI : List CategoryInfo)
    (st : Store) (messageId : String) (o : MsgOracle) :
    ∃ l, (processMessage userId catsForAI st messageId o).1.transactions =
      st.transactions ++ l := by
  rcases hdup : findByEmailId st messageId with _ | row
  · rcases hf : o.fetch with e | message
    · exact ⟨[], by simp [processMessage, hdup, hf]⟩
    · rcases hx : o.extract with e | call
      · exact ⟨[], by simp [processMessage, hdup, hf, hx]⟩
      · obtain ⟨l, hl⟩ := saveStep_transactions userId messageId st o message.body
          (extractFromEmail catsForAI call)
        refine ⟨l, ?_⟩
        simp only [processMessage, hdup, hf, hx]
        split
        · exact hl
        · exact hl
  · exact ⟨[], by simp [processMessage, hdup]⟩

end Autofin

namespace Autofin

theorem processMessage_dup {userId : String} {catsForAI : List CategoryInfo}
    {st : Store} {messageId : String} {o : MsgOracle} {row : TransactionRow}
    (h : findByEmailId st messageId = some row) :
    processMessage userId catsForAI st messageId o =
      (st, BodyStep.dupPre, ⟨false, false⟩) := by
  simp [processMessage, h]

theorem saveStep_raceDup {userId messageId : String} {st : Store} {o : MsgOracle}
    {bodyText : String} {er : TransactionExtractionResult} {txn : ResultTxn} {e : String}
    (hv : isValidTransaction er = true) (htx : er.transaction = some txn)
    (hcf : o.txnCreateFault = some e) (hu : isUniqueConstraintError e = true) :
    saveStep userId messageId st o bodyText er =
      ((categoryStep userId st o txn).1, some BodyStep.raceDup) := by
  simp [saveStep, hv, htx, hcf, hu]

theorem processMessage_raceDup {userId : String} {catsForAI : List CategoryInfo}
    {st : Store} {messageId : String} {o : MsgOracle} {message : FetchedMessage}
    {call : ModelCall} {txn : ResultTxn} {e : String}
    (hdup : findByEmailId st messageId = none)
    (hf : o.fetch = Except.ok message)
    (hx : o.extract = ExtractCall.model call)
    (hv : isValidTransaction (extractFromEmail catsForAI call) = true)
    (htx : (extractFromEmail catsForAI call).transaction = some txn)
    (hcf : o.txnCreateFault = some e)
    (hu : isUniqueConstraintError e = true) :
    processMessage userId catsForAI st messageId o =
      ((categoryStep userId st o txn).1, BodyStep.raceDup, ⟨true, false⟩) := by
  simp only [processMessage, hdup, hf, hx]
  rw [saveStep_raceDup hv htx hcf hu]

theorem stepMessage_raceDup {userId : String} {catsForAI : List CategoryInfo}
    {oracle : String → MsgOracle} {acc : BatchAcc} {M : String}
    {message : FetchedMessage} {call : ModelCall} {txn : ResultTxn} {e : String}
    (hnew : acc.processedIds.contains M = false)
    (hdup : findByEmailId acc.store M = none)
    (hf : (oracle M).fetch = Except.ok message)
    (hx : (oracle M).extract = ExtractCall.model call)
    (hv : isValidTransaction (extractFromEmail catsForAI call) = true)
    (htx : (extractFromEmail catsForAI call).transaction = some txn)
    (hcf : (oracle M).txnCreateFault = some e)
    (hu : isUniqueConstraintError e = true) :
    stepMessage userId catsForAI oracle acc M =
      { acc with
        processedIds := acc.processedIds ++ [M]
        extractedIds := acc.extractedIds ++ [M]
        store := (categoryStep userId acc.store (oracle M) txn).1 } := by
  simp only [stepMessage, hnew, Bool.false_eq_true, if_false]
  rw [processMessage_raceDup hdup hf hx hv htx hcf hu]
  rfl

theorem foldl_preserve {α β : Type _} (P : α → Prop) (f : α → β → α)
    (hf : ∀ a b, P a → P (f a b)) : ∀ (l : List β) (a : α), P a → P (l.foldl f a) := by
  intro l
  induction l with
  | nil => intro a h; exact h
  | cons x xs ih => intro a h; exact ih _ (hf _ _ h)

theorem findByEmailId_mono {st st' : Store} {M : String} {l : List TransactionRow}
    (h : st'.transactions = st.transactions ++ l)
    (hsome : (findByEmailId st M).isSome = true) :
    (findByEmailId st' M).isSome = true := by
  unfold findByEmailId at *
  rw [h, List.find?_append]
  rcases hf : st.transactions.find? (fun t => t.emailId = some M) with _ | row
  · rw [hf] at hsome
    exact absurd hsome (by simp)
  · simp [hf, Option.or]

theorem stepMessage_dupSafe {userId : String} {catsForAI : List CategoryInfo}
    {oracle : String → MsgOracle} {M : String} (acc : BatchAcc) (m : String)
    (h : (findByEmailId acc.store M).isSome = true ∧ M ∉ acc.extractedIds) :
    (findByEmailId (stepMessage userId catsForAI oracle acc m).store M).isSome = true ∧
      M ∉ (stepMessage userId catsForAI oracle acc m).extractedIds := by
  by_cases hc : acc.processedIds.contains m = true
  · simp only [stepMessage, hc, if_true]
    exact h
  · rw [Bool.not_eq_true] at hc
    by_cases hm : m = M
    · subst hm
      obtain ⟨row, hrow⟩ := Option.isSome_iff_exists.mp h.1
      simp only [stepMessage, hc, Bool.false_eq_true, if_false]
      rw [processMessage_dup hrow]
      simp only
      exact ⟨h.1, h.2⟩
    · obtain ⟨l, hl⟩ := processMessage_transactions userId catsForAI acc.store m (oracle m)
      rcases hout : processMessage userId catsForAI acc.store m (oracle m) with ⟨st2, step, tr⟩
      rw [hout] at hl
      simp only at hl
      have hstore : (findByEmailId st2 M).isSome = true := findByEmailId_mono hl h.1
      have hext : ∀ ids : List String, M ∉ ids → ids ⊆ acc.extractedIds ++ [m] → True := by
        intro _ _ _; trivial
      simp only [stepMessage, hc, Bool.false_eq_true, if_false, hout]
      have hnotmem : M ∉ acc.extractedIds ++ [m] := by
        intro hmem
        rcases List.mem_append.mp hmem with h1 | h2
        · exact h.2 h1
        · exact hm (List.mem_singleton.mp h2).symm
      have hif : ∀ b : Bool,
          M ∉ (if b = true then acc.extractedIds ++ [m] else acc.extractedIds) := by
        intro b
        cases b
        · simpa using h.2
        · simpa using hnotmem
      cases step with
      | dupPre => exact ⟨hstore, hif _⟩
      | raceDup => exact ⟨hstore, hif _⟩
      | completed => exact ⟨hstore, hif _⟩
      | thrown e =>
        by_cases h404 : (containsSub e "404" || containsSub e "notFound") = true
        · simp only [h404, if_true]
          exact ⟨hstore, hif _⟩
        · rw [Bool.not_eq_true] at h404
          simp only [h404, Bool.false_eq_true, if_false]
          exact ⟨hstore, hif _⟩

theorem batchFold_dupSafe (userId : String) (catsForAI : List CategoryInfo)
    (oracle : String → MsgOracle) (history : List HistoryEntry) (acc : BatchAcc) (M : String)
    (h : (findByEmailId acc.store M).isSome = true ∧ M ∉ acc.extractedIds) :
    (findByEmailId (history.foldl
        (fun a entry => entry.messagesAdded.foldl (stepMessage userId catsForAI oracle) a)
        acc).store M).isSome = true ∧
      M ∉ (history.foldl
        (fun a entry => entry.messagesAdded.foldl (stepMessage userId catsForAI oracle) a)
        acc).extractedIds := by
  refine foldl_preserve
    (fun a => (findByEmailId a.store M).isSome = true ∧ M ∉ a.extractedIds)
    _ ?_ history acc h
  intro a entry ha
  exact foldl_preserve _ _ (fun a2 m ha2 => stepMessage_dupSafe a2 m ha2)
    entry.messagesAdded a ha

end Autofin

namespace Autofin

/-! ## Claim C1 -/

/-- Claim C1: if inserting a message's transaction fails with a uniqueness
violation on the external message id, the notification processor swallows
the error and continues with the remaining messages; the error is not
counted as failed, does not appear in the batch error list, and does not
abort processing. -/
theorem c1_uniqueViolationSwallowed (userId : String) (catsForAI : List CategoryInfo)
    (oracle : String → MsgOracle) (acc : BatchAcc) (M : String)
    (message : FetchedMessage) (call : ModelCall) (txn : ResultTxn) (e : String)
    (hnew : acc.processedIds.contains M = false)
    (hdup : findByEmailId acc.store M = none)
    (hf : (oracle M).fetch = Except.ok message)
    (hx : (oracle M).extract = ExtractCall.model call)
    (hv : isValidTransaction (extractFromEmail catsForAI call) = true)
    (htx : (extractFromEmail catsForAI call).transaction = some txn)
    (hcf : (oracle M).txnCreateFault = some e)
    (hu : isUniqueConstraintError e = true) :
    (stepMessage userId catsForAI oracle acc M).processedCount = acc.processedCount ∧
    (stepMessage userId catsForAI oracle acc M).failedCount = acc.failedCount ∧
    (stepMessage userId catsForAI oracle acc M).errors = acc.errors ∧
    ∀ rest : List String,
      (M :: rest).foldl (stepMessage userId catsForAI oracle) acc =
        rest.foldl (stepMessage userId catsForAI oracle)
          (stepMessage userId catsForAI oracle acc M) := by
  have hstep := @stepMessage_raceDup userId catsForAI oracle acc M message call txn e
    hnew hdup hf hx hv htx hcf hu
  exact ⟨by rw [hstep], by rw [hstep], by rw [hstep], fun rest => rfl⟩

/-- Witness for C1 at a concrete batch state. -/
theorem c1_uniqueViolationSwallowed_witness :
    isUniqueConstraintError uniqueViolationMsg = true ∧
    (stepMessage "u1" exCats exRaceOracle exAcc "m1").processedCount = exAcc.processedCount ∧
    (stepMessage "u1" exCats exRaceOracle exAcc "m1").failedCount = exAcc.failedCount ∧
    (stepMessage "u1" exCats exRaceOracle exAcc "m1").errors = exAcc.errors := by
  have h := c1_uniqueViolationSwallowed "u1" exCats exRaceOracle exAcc "m1"
    exMsg (Except.ok exOut) exResolvedTxn uniqueViolationMsg
    (by decide) (by decide) rfl rfl (by decide) (by decide) rfl (by decide)
  exact ⟨by decide, h.1, h.2.1, h.2.2.1⟩

/-! ## Claim C2 -/

/-- Claim C2: if a transaction with external message id M already exists in
the store before the batch runs, the Extraction Engine is never invoked
for M (M never enters the extractor-invocation trace). -/
theorem c2_costSkip (userId : String) (notification : GmailNotification)
    (stored : Option String) (st : Store)
    (gh : String → Except String (List HistoryEntry)) (oracle : String → MsgOracle)
    (M : String) (row : TransactionRow)
    (h : findByEmailId st M = some row) :
    M ∉ (processNotification userId notification stored st gh oracle).extractedIds := by
  unfold processNotification
  cases hgh : gh (historyIdToUse stored notification) with
  | error e =>
    by_cases h4 : (containsSub e "404" || containsSub e "notFound") = true
    · simp [h4]
    · by_cases h1 : (containsSub e "401" || containsSub e "invalid_grant") = true
      · simp [h4, h1]
      · simp [h4, h1]
  | ok history =>
    have hsome : (findByEmailId (⟨st, [], 0, 0, [], [], []⟩ : BatchAcc).store M).isSome =
        true := by
      show (findByEmailId st M).isSome = true
      rw [h]
      rfl
    have hfold := batchFold_dupSafe userId
      ((findAllForUser st userId).map (fun c => CategoryInfo.mk c.id c.name c.icon))
      oracle history ⟨st, [], 0, 0, [], [], []⟩ M ⟨hsome, by simp⟩
    exact hfold.2

/-- Witness for C2: a store already holding m1 never re-extracts m1. -/
theorem c2_costSkip_witness :
    findByEmailId exDupStore "m1" = some exDupRow ∧
    "m1" ∉ (processNotification "u1" exNotif none exDupStore
      (fun _ => Except.ok [⟨["m1"], [], [], []⟩]) exGoodOracle).extractedIds := by
  refine ⟨by decide, ?_⟩
  exact c2_costSkip "u1" exNotif none exDupStore
    (fun _ => Except.ok [⟨["m1"], [], [], []⟩]) exGoodOracle "m1" exDupRow (by decide)

/-! ## Claim C4 -/

/-- Claim C4: for a non-empty category list, an error thrown by the model
call or result parsing makes `extractFromEmail` and `extractFromSms`
return isTransaction false with a null transaction, never an exception. -/
theorem c4_extractionErrorDegrades (cats : List CategoryInfo) (e : String)
    (_hne : cats ≠ []) :
    extractFromEmail cats (Except.error e) = ⟨false, none⟩ ∧
    extractFromSms cats (Except.error e) = ⟨false, none⟩ := by
  constructor
  · simp [extractFromEmail]
  · simp [extractFromSms]

/-- Witness for C4 on a concrete category list and error. -/
theorem c4_extractionErrorDegrades_witness :
    exCats ≠ [] ∧
    extractFromEmail exCats (Except.error "model timeout") = ⟨false, none⟩ := by
  refine ⟨by decide, ?_⟩
  exact (c4_extractionErrorDegrades exCats "model timeout" (by decide)).1

/-! ## Claim C8 -/

/-- Claim C8: when the history fetch fails with a 404/notFound (expired or
unknown cursor), the pass completes as a success with an empty delta: no
messages processed, no failures, success true. -/
theorem c8_expiredCursorEmptyDelta (userId : String) (notification : GmailNotification)
    (stored : Option String) (st : Store)
    (gh : String → Except String (List HistoryEntry)) (oracle : String → MsgOracle)
    (e : String)
    (herr : gh (historyIdToUse stored notification) = Except.error e)
    (h404 : (containsSub e "404" || containsSub e "notFound") = true) :
    (processNotification userId notification stored st gh oracle).result.success = true ∧
    (processNotification userId notification stored st gh oracle).result.processedCount = 0 ∧
    (processNotification userId notification stored st gh oracle).result.failedCount = 0 := by
  unfold processNotification
  rw [herr]
  simp [h404]

/-- Witness for C8 with a concrete 404 error. -/
theorem c8_expiredCursorEmptyDelta_witness :
    ((fun (_ : String) =>
        (Except.error "Gmail API error: 404 Not Found" : Except String (List HistoryEntry)))
      (historyIdToUse none exNotif) = Except.error "Gmail API error: 404 Not Found") ∧
    (processNotification "u1" exNotif none exStore
      (fun _ => Except.error "Gmail API error: 404 Not Found") exGoodOracle).result.success =
      true := by
  refine ⟨rfl, ?_⟩
  exact (c8_expiredCursorEmptyDelta "u1" exNotif none exStore
    (fun _ => Except.error "Gmail API error: 404 Not Found") exGoodOracle
    "Gmail API error: 404 Not Found" rfl (by decide)).1

end Autofin

namespace Autofin

/-! ## Claim C10 -/

/-- Claim C10: duplicates are counted asymmetrically.  A message skipped by
the pre-extraction duplicate check increments processedCount; a duplicate
detected only at insert time (uniqueness violation) increments neither
counter, adds no error entry, and skips the unread-marker removal. -/
theorem c10_duplicateCountingAsymmetry (userId : String) (catsForAI : List CategoryInfo)
    (oracle : String → MsgOracle) (acc : BatchAcc) (M : String)
    (hnew : acc.processedIds.contains M = false) :
    (∀ row, findByEmailId acc.store M = some row →
      stepMessage userId catsForAI oracle acc M =
        { acc with
          processedIds := acc.processedIds ++ [M]
          processedCount := acc.processedCount + 1 }) ∧
    (∀ message call txn e,
      findByEmailId acc.store M = none →
      (oracle M).fetch = Except.ok message →
      (oracle M).extract = ExtractCall.model call →
      isValidTransaction (extractFromEmail catsForAI call) = true →
      (extractFromEmail catsForAI call).transaction = some txn →
      (oracle M).txnCreateFault = some e →
      isUniqueConstraintError e = true →
      (stepMessage userId catsForAI oracle acc M).processedCount = acc.processedCount ∧
      (stepMessage userId catsForAI oracle acc M).failedCount = acc.failedCount ∧
      (stepMessage userId catsForAI oracle acc M).errors = acc.errors ∧
      (stepMessage userId catsForAI oracle acc M).markedIds = acc.markedIds) := by
  constructor
  · intro row h
    simp only [stepMessage, hnew, Bool.false_eq_true, if_false]
    rw [processMessage_dup h]
    rfl
  · intro message call txn e hdup hf hx hv htx hcf hu
    have hstep := @stepMessage_raceDup userId catsForAI oracle acc M message call txn e
      hnew hdup hf hx hv htx hcf hu
    exact ⟨by rw [hstep], by rw [hstep], by rw [hstep], by rw [hstep]⟩

/-- Witness for C10 on concrete batch states: a pre-check duplicate counts
as processed; an insert-time duplicate counts as nothing and skips the
unread-marker removal. -/
theorem c10_duplicateCountingAsymmetry_witness :
    (⟨exDupStore, [], 0, 0, [], [], []⟩ : BatchAcc).processedIds.contains "m1" = false ∧
    (stepMessage "u1" exCats exGoodOracle ⟨exDupStore, [], 0, 0, [], [], []⟩
      "m1").processedCount = 1 ∧
    (stepMessage "u1" exCats exRaceOracle exAcc "m1").processedCount = 0 ∧
    (stepMessage "u1" exCats exRaceOracle exAcc "m1").markedIds = [] := by
  refine ⟨by decide, ?_, ?_, ?_⟩
  · rw [(c10_duplicateCountingAsymmetry "u1" exCats exGoodOracle
      ⟨exDupStore, [], 0, 0, [], [], []⟩ "m1" (by decide)).1 exDupRow (by decide)]
  · exact ((c10_duplicateCountingAsymmetry "u1" exCats exRaceOracle exAcc "m1"
      (by decide)).2 exMsg (Except.ok exOut) exResolvedTxn uniqueViolationMsg
      (by decide) rfl rfl (by decide) (by decide) rfl (by decide)).1
  · exact ((c10_duplicateCountingAsymmetry "u1" exCats exRaceOracle exAcc "m1"
      (by decide)).2 exMsg (Except.ok exOut) exResolvedTxn uniqueViolationMsg
      (by decide) rfl rfl (by decide) (by decide) rfl (by decide)).2.2.2

/-! ## Claim C9 -/

/-- Counterexample to C9 as stated: a payload whose `message.data` decodes
to malformed JSON (a decode failure on a malformed payload) is acknowledged
with HTTP 200, not rejected with a client error. -/
theorem c9_undecodablePayloadAcked :
    (webhookPost WebhookPayload.undecodable exTokens exDeps).status = 200 ∧
    ¬(400 ≤ (webhookPost WebhookPayload.undecodable exTokens exDeps).status ∧
      (webhookPost WebhookPayload.undecodable exTokens exDeps).status < 500) := by
  decide

/-- Amended C9: the handler returns 400 exactly when the envelope structure
check fails (missing `message` or `message.data`); every other case --
including an undecodable inner payload, a DB error, an unknown account, or
any downstream processing outcome -- is acknowledged with 200. -/
theorem c9_webhookAckStatus (payload : WebhookPayload) (ts : TokenStore)
    (deps : WebhookDeps) :
    (webhookPost payload ts deps).status =
      if payload = WebhookPayload.missingData then 400 else 200 := by
  cases payload with
  | invalidJson => rfl
  | missingData => rfl
  | undecodable => rfl
  | notif n =>
    unfold webhookPost
    rcases hlf : deps.lookupFault with _ | e
    · simp only [hlf]
      rcases hfe : findByEmailAddress ts n.emailAddress with _ | token
      · simp only [hfe]
        rfl
      · simp only [hfe]
        by_cases hs : (processNotification token.userId n token.historyId deps.store
            deps.getHistoryOutcome deps.oracle).result.success = true
        · simp only [hs, if_true]
          rfl
        · rw [Bool.not_eq_true] at hs
          simp only [hs, Bool.false_eq_true, if_false]
          rfl
    · simp only [hlf]
      rfl

/-! ## Claim C3 counterexample -/

/-- Counterexample to C3 as stated: with the Uncategorized default present
in the store, a create_new decision whose category creation throws and
whose name lookup finds nothing persists the transaction with a null
category id; the pipeline does not always end with a valid category id. -/
theorem c3_createNewNullCategory :
    (exStore.categories.find? (fun c => lowerStr c.name = "uncategorized")).isSome = true ∧
    (processNotification "u1" exNotif none exStore
      (fun _ => Except.ok [⟨["m1"], [], [], []⟩]) exNewCatFailOracle).store.transactions.map
        (fun t => (t.emailId, t.categoryId)) = [(some "m1", none)] := by
  decide

/-! ## Claim C6 counterexample -/

/-- Counterexample to C6 as stated: two successful webhook runs processed
out of order (notification cursors 200 then 100) both advance, and the
stored cursor regresses from 200 to 100; the repository writes the value
unconditionally, with no monotonicity guard. -/
theorem c6_cursorRegression :
    (webhookPost (WebhookPayload.notif ⟨"a@x", "200"⟩) exTokens exDeps).cursorUpdated = true ∧
    (webhookPost (WebhookPayload.notif ⟨"a@x", "100"⟩)
      (webhookPost (WebhookPayload.notif ⟨"a@x", "200"⟩) exTokens exDeps).tokens
      exDeps).cursorUpdated = true ∧
    (webhookPost (WebhookPayload.notif ⟨"a@x", "200"⟩) exTokens exDeps).tokens.rows.map
      (fun r => r.historyId) = [some "200"] ∧
    (webhookPost (WebhookPayload.notif ⟨"a@x", "100"⟩)
      (webhookPost (WebhookPayload.notif ⟨"a@x", "200"⟩) exTokens exDeps).tokens
      exDeps).tokens.rows.map (fun r => r.historyId) = [some "100"] ∧
    cursorNum (some "100") < cursorNum (some "200") := by
  decide

/-! ## Claim C7 counterexample -/

/-- Counterexample to C7 as stated: a fetch-404 per-message failure is
caught but NOT tallied (failedCount 0, empty error list), and in a batch of
two where exactly one message fails extraction (the model call throws
inside the extractor), both messages count as processed: processedCount 2,
failedCount 0, not N-1 and 1. -/
theorem c7_perMessageTallyCounterexample :
    ((processNotification "u1" exNotif none exStore
        (fun _ => Except.ok [⟨["m1"], [], [], []⟩]) exFetch404Oracle).result.failedCount = 0 ∧
      (processNotification "u1" exNotif none exStore
        (fun _ => Except.ok [⟨["m1"], [], [], []⟩]) exFetch404Oracle).result.errors = [] ∧
      (processNotification "u1" exNotif none exStore
        (fun _ => Except.ok [⟨["m1"], [], [], []⟩]) exFetch404Oracle).result.processedCount = 0) ∧
    ((processNotification "u1" exNotif none exStore
        (fun _ => Except.ok [⟨["m1", "m2"], [], [], []⟩]) exMixedOracle).result.processedCount = 2 ∧
      (processNotification "u1" exNotif none exStore
        (fun _ => Except.ok [⟨["m1", "m2"], [], [], []⟩]) exMixedOracle).result.failedCount = 0 ∧
      (processNotification "u1" exNotif none exStore
        (fun _ => Except.ok [⟨["m1", "m2"], [], [], []⟩]) exMixedOracle).result.errors = []) := by
  decide

end Autofin

namespace Autofin

/-! ## Branch equations for processNotification -/

theorem processNotification_expired {userId : String} {n : GmailNotification}
    {stored : Option String} {st : Store} {gh : String → Except String (List HistoryEntry)}
    {oracle : String → MsgOracle} {e : String}
    (hgh : gh (historyIdToUse stored n) = Except.error e)
    (h404 : (containsSub e "404" || containsSub e "notFound") = true) :
    processNotification userId n stored st gh oracle =
      ⟨⟨true, n.historyId, 0, 0, [("history", "History ID expired or not found")]⟩,
        st, [], []⟩ := by
  unfold processNotification
  rw [hgh]
  simp [h404]

theorem processNotification_authError {userId : String} {n : GmailNotification}
    {stored : Option String} {st : Store} {gh : String → Except String (List HistoryEntry)}
    {oracle : String → MsgOracle} {e : String}
    (hgh : gh (historyIdToUse stored n) = Except.error e)
    (h404 : (containsSub e "404" || containsSub e "notFound") = false)
    (h401 : (containsSub e "401" || containsSub e "invalid_grant") = true) :
    processNotification userId n stored st gh oracle =
      ⟨⟨false, n.historyId, 0, 0, [("auth", "OAuth token expired or revoked")]⟩,
        st, [], []⟩ := by
  unfold processNotification
  rw [hgh]
  simp [h404, h401]

theorem processNotification_fetchError {userId : String} {n : GmailNotification}
    {stored : Option String} {st : Store} {gh : String → Except String (List HistoryEntry)}
    {oracle : String → MsgOracle} {e : String}
    (hgh : gh (historyIdToUse stored n) = Except.error e)
    (h404 : (containsSub e "404" || containsSub e "notFound") = false)
    (h401 : (containsSub e "401" || containsSub e "invalid_grant") = false) :
    processNotification userId n stored st gh oracle =
      ⟨⟨false, n.historyId, 0, 0, [("history", e)]⟩, st, [], []⟩ := by
  unfold processNotification
  rw [hgh]
  simp [h404, h401]

theorem processNotification_ok_eq {userId : String} {n : GmailNotification}
    {stored : Option String} {st : Store} {gh : String → Except String (List HistoryEntry)}
    {oracle : String → MsgOracle} {history : List HistoryEntry}
    (hgh : gh (historyIdToUse stored n) = Except.ok history) :
    processNotification userId n stored st gh oracle =
      ⟨⟨!(decide ((batchAccOf userId st oracle history).processedCount = 0) &&
          decide (0 < (batchAccOf userId st oracle history).failedCount)),
        n.historyId,
        (batchAccOf userId st oracle history).processedCount,
        (batchAccOf userId st oracle history).failedCount,
        (batchAccOf userId st oracle history).errors⟩,
        (batchAccOf userId st oracle history).store,
        (batchAccOf userId st oracle history).extractedIds,
        (batchAccOf userId st oracle history).markedIds⟩ := by
  unfold processNotification batchAccOf
  rw [hgh]

theorem processNotification_historyId (userId : String) (n : GmailNotification)
    (stored : Option String) (st : Store) (gh : String → Except String (List HistoryEntry))
    (oracle : String → MsgOracle) :
    (processNotification userId n stored st gh oracle).result.historyId = n.historyId := by
  rcases hgh : gh (historyIdToUse stored n) with e | history
  · by_cases h4 : (containsSub e "404" || containsSub e "notFound") = true
    · rw [processNotification_expired hgh h4]
    · rw [Bool.not_eq_true] at h4
      by_cases h1 : (containsSub e "401" || containsSub e "invalid_grant") = true
      · rw [processNotification_authError hgh h4 h1]
      · rw [Bool.not_eq_true] at h1
        rw [processNotification_fetchError hgh h4 h1]
  · rw [processNotification_ok_eq hgh]

theorem pn_success_of_processed {userId : String} {n : GmailNotification}
    {stored : Option String} {st : Store} {gh : String → Except String (List HistoryEntry)}
    {oracle : String → MsgOracle}
    (h : 0 < (processNotification userId n stored st gh oracle).result.processedCount) :
    (processNotification userId n stored st gh oracle).result.success = true := by
  rcases hgh : gh (historyIdToUse stored n) with e | history
  · by_cases h4 : (containsSub e "404" || containsSub e "notFound") = true
    · rw [processNotification_expired hgh h4] at h
      exact absurd h (by simp)
    · rw [Bool.not_eq_true] at h4
      by_cases h1 : (containsSub e "401" || containsSub e "invalid_grant") = true
      · rw [processNotification_authError hgh h4 h1] at h
        exact absurd h (by simp)
      · rw [Bool.not_eq_true] at h1
        rw [processNotification_fetchError hgh h4 h1] at h
        exact absurd h (by simp)
  · rw [processNotification_ok_eq hgh] at h ⊢
    dsimp only at h
    have hz : decide ((batchAccOf userId st oracle history).processedCount = 0) = false := by
      simp only [decide_eq_false_iff_not]
      omega
    simp [hz]

theorem pn_failure_not_success {userId : String} {n : GmailNotification}
    {stored : Option String} {st : Store} {gh : String → Except String (List HistoryEntry)}
    {oracle : String → MsgOracle}
    (h0 : (processNotification userId n stored st gh oracle).result.processedCount = 0)
    (h1 : 0 < (processNotification userId n stored st gh oracle).result.failedCount) :
    (processNotification userId n stored st gh oracle).result.success = false := by
  rcases hgh : gh (historyIdToUse stored n) with e | history
  · by_cases h4 : (containsSub e "404" || containsSub e "notFound") = true
    · rw [processNotification_expired hgh h4] at h1
      exact absurd h1 (by simp)
    · rw [Bool.not_eq_true] at h4
      by_cases hc : (containsSub e "401" || containsSub e "invalid_grant") = true
      · rw [processNotification_authError hgh h4 hc]
      · rw [Bool.not_eq_true] at hc
        rw [processNotification_fetchError hgh h4 hc]
  · rw [processNotification_ok_eq hgh] at h0 h1 ⊢
    dsimp only at h0 h1
    have hz : decide ((batchAccOf userId st oracle history).processedCount = 0) = true := by
      simpa using h0
    have hf : decide (0 < (batchAccOf userId st oracle history).failedCount) = true := by
      simpa using h1
    simp [hz, hf]

theorem webhookPost_found {n : GmailNotification} {ts : TokenStore} {deps : WebhookDeps}
    {token : GmailOAuthToken}
    (hl : deps.lookupFault = none)
    (ht : findByEmailAddress ts n.emailAddress = some token) :
    webhookPost (WebhookPayload.notif n) ts deps =
      (if (processNotification token.userId n token.historyId deps.store
            deps.getHistoryOutcome deps.oracle).result.success = true then
        ⟨200, updateHistoryIdByEmail ts n.emailAddress
            (processNotification token.userId n token.historyId deps.store
              deps.getHistoryOutcome deps.oracle).result.historyId,
          (processNotification token.userId n token.historyId deps.store
            deps.getHistoryOutcome deps.oracle).store,
          some (processNotification token.userId n token.historyId deps.store
            deps.getHistoryOutcome deps.oracle).result, true⟩
      else
        ⟨200, ts,
          (processNotification token.userId n token.historyId deps.store
            deps.getHistoryOutcome deps.oracle).store,
          some (processNotification token.userId n token.historyId deps.store
            deps.getHistoryOutcome deps.oracle).result, false⟩) := by
  unfold webhookPost
  simp only [hl, ht]

end Autofin

namespace Autofin

/-! ## Claim C5 -/

/-- Claim C5: after processing a notification, the webhook advances the
stored cursor to the notification's reported value exactly when the result
is not a total failure: never when processedCount = 0 with failures or when
the history fetch failed with a non-expiry error; always when at least one
message succeeded or the batch was empty. -/
theorem c5_cursorAdvanceIffSuccess (n : GmailNotification) (ts : TokenStore)
    (deps : WebhookDeps) (token : GmailOAuthToken)
    (hl : deps.lookupFault = none)
    (ht : findByEmailAddress ts n.emailAddress = some token) :
    ((webhookPost (WebhookPayload.notif n) ts deps).cursorUpdated =
      (processNotification token.userId n token.historyId deps.store
        deps.getHistoryOutcome deps.oracle).result.success) ∧
    ((webhookPost (WebhookPayload.notif n) ts deps).cursorUpdated = true →
      (webhookPost (WebhookPayload.notif n) ts deps).tokens =
        updateHistoryIdByEmail ts n.emailAddress n.historyId) ∧
    ((processNotification token.userId n token.historyId deps.store
        deps.getHistoryOutcome deps.oracle).result.processedCount = 0 →
      0 < (processNotification token.userId n token.historyId deps.store
        deps.getHistoryOutcome deps.oracle).result.failedCount →
      (webhookPost (WebhookPayload.notif n) ts deps).cursorUpdated = false) ∧
    (∀ e, deps.getHistoryOutcome (historyIdToUse token.historyId n) = Except.error e →
      (containsSub e "404" || containsSub e "notFound") = false →
      (webhookPost (WebhookPayload.notif n) ts deps).cursorUpdated = false) ∧
    (0 < (processNotification token.userId n token.historyId deps.store
        deps.getHistoryOutcome deps.oracle).result.processedCount →
      (webhookPost (WebhookPayload.notif n) ts deps).cursorUpdated = true) ∧
    (deps.getHistoryOutcome (historyIdToUse token.historyId n) = Except.ok [] →
      (webhookPost (WebhookPayload.notif n) ts deps).cursorUpdated = true) := by
  have hw := webhookPost_found hl ht
  refine ⟨?_, ?_, ?_, ?_, ?_, ?_⟩
  · by_cases hs : (processNotification token.userId n token.historyId deps.store
        deps.getHistoryOutcome deps.oracle).result.success = true
    · rw [hw]
      simp [hs]
    · rw [Bool.not_eq_true] at hs
      rw [hw]
      simp [hs]
  · intro hcu
    by_cases hs : (processNotification token.userId n token.historyId deps.store
        deps.getHistoryOutcome deps.oracle).result.success = true
    · rw [hw]
      simp only [hs, if_true]
      rw [processNotification_historyId]
    · rw [Bool.not_eq_true] at hs
      rw [hw] at hcu
      simp [hs] at hcu
  · intro h0 h1
    have hs := pn_failure_not_success h0 h1
    rw [hw]
    simp [hs]
  · intro e he h404
    have hs : (processNotification token.userId n token.historyId deps.store
        deps.getHistoryOutcome deps.oracle).result.success = false := by
      by_cases h1 : (containsSub e "401" || containsSub e "invalid_grant") = true
      · rw [processNotification_authError he h404 h1]
      · rw [Bool.not_eq_true] at h1
        rw [processNotification_fetchError he h404 h1]
    rw [hw]
    simp [hs]
  · intro hp
    have hs := pn_success_of_processed hp
    rw [hw]
    simp [hs]
  · intro hok
    have hs : (processNotification token.userId n token.historyId deps.store
        deps.getHistoryOutcome deps.oracle).result.success = true := by
      rw [processNotification_ok_eq hok]
      rfl
    rw [hw]
    simp [hs]

/-- Witness for C5 on a concrete webhook run (empty history, stored token
found). -/
theorem c5_cursorAdvanceIffSuccess_witness :
    exDeps.lookupFault = none ∧
    findByEmailAddress exTokens "a@x" = some ⟨"u1", "a@x", none⟩ ∧
    (webhookPost (WebhookPayload.notif exNotif) exTokens exDeps).cursorUpdated =
      (processNotification "u1" exNotif none exDeps.store
        exDeps.getHistoryOutcome exDeps.oracle).result.success := by
  refine ⟨rfl, by decide, ?_⟩
  exact (c5_cursorAdvanceIffSuccess exNotif exTokens exDeps ⟨"u1", "a@x", none⟩
    rfl (by decide)).1

end Autofin

namespace Autofin

/-! ## Claim C3 (amended) -/

theorem mapSet_mem {m : List (String × CategoryInfo)} {k : String} {v : CategoryInfo}
    {p : String × CategoryInfo} (hp : p ∈ mapSet m k v) : p ∈ m ∨ p = (k, v) := by
  unfold mapSet at hp
  split at hp
  · rcases List.mem_map.mp hp with ⟨q, hq, hqe⟩
    by_cases hk : q.1 = k
    · right
      rw [if_pos hk] at hqe
      exact hqe.symm
    · left
      rw [if_neg hk] at hqe
      exact hqe ▸ hq
  · rcases List.mem_append.mp hp with h1 | h2
    · exact Or.inl h1
    · exact Or.inr (List.mem_singleton.mp h2)

theorem buildMapAux (cats : List CategoryInfo) :
    ∀ (l : List CategoryInfo) (m : List (String × CategoryInfo)),
      (∀ q ∈ m, q.2 ∈ cats ∧ q.1 = q.2.id) → (∀ c ∈ l, c ∈ cats) →
      ∀ p ∈ l.foldl (fun m c => mapSet m c.id c) m, p.2 ∈ cats ∧ p.1 = p.2.id := by
  intro l
  induction l with
  | nil =>
    intro m hm _ p hp
    exact hm p hp
  | cons c cl ih =>
    intro m hm hl p hp
    refine ih (mapSet m c.id c) ?_ (fun x hx => hl x (List.mem_cons_of_mem _ hx)) p hp
    intro q hq
    rcases mapSet_mem hq with h1 | h2
    · exact hm q h1
    · subst h2
      exact ⟨hl c (List.mem_cons_self _ _), rfl⟩

theorem buildCategoryMap_mem {cats : List CategoryInfo} {p : String × CategoryInfo}
    (hp : p ∈ buildCategoryMap cats) : p.2 ∈ cats ∧ p.1 = p.2.id :=
  buildMapAux cats cats [] (by intro q hq; cases hq) (fun c h => h) p hp

theorem mapGet_mem {cats : List CategoryInfo} {k : String} {c : CategoryInfo}
    (h : mapGet (buildCategoryMap cats) k = some c) : c ∈ cats := by
  unfold mapGet at h
  rcases hf : (buildCategoryMap cats).find? (fun p => p.1 = k) with _ | p
  · rw [hf] at h
    cases h
  · rw [hf] at h
    injection h with h2
    subst h2
    exact (buildCategoryMap_mem (List.mem_of_find?_eq_some hf)).1

theorem selection_closure (cats : List CategoryInfo) (u : CategoryInfo) (cid : String)
    (hu_mem : u ∈ cats) (hids : ∀ c ∈ cats, c.id ≠ "") :
    ∃ c ∈ cats,
      jsOrS (((match resolveCategoryId cid (buildCategoryMap cats) (some u) with
          | some rid => if rid = "" then none else mapGet (buildCategoryMap cats) rid
          | none => none : Option CategoryInfo)).map (fun x => x.id))
        (jsOrS ((some u).map (fun x => x.id)) none) = some c.id := by
  rcases hr : resolveCategoryId cid (buildCategoryMap cats) (some u) with _ | rid
  · refine ⟨u, hu_mem, ?_⟩
    dsimp only
    simp [jsOrS, hids u hu_mem]
  · by_cases hempty : rid = ""
    · refine ⟨u, hu_mem, ?_⟩
      dsimp only
      rw [if_pos hempty]
      simp [jsOrS, hids u hu_mem]
    · rcases hg : mapGet (buildCategoryMap cats) rid with _ | c
      · refine ⟨u, hu_mem, ?_⟩
        dsimp only
        rw [if_neg hempty, hg]
        simp [jsOrS, hids u hu_mem]
      · refine ⟨c, mapGet_mem hg, ?_⟩
        have hcid : c.id ≠ "" := hids c (mapGet_mem hg)
        dsimp only
        rw [if_neg hempty, hg]
        simp [jsOrS, hcid]

/-- Amended C3: for select_existing and uncategorized decisions the
resolution chain (exact id, then case-insensitive name, then the caller's
Uncategorized category) always yields a category id present in the
available category list, provided that list contains an Uncategorized
entry and its ids are nonempty.  (The create_new path has no such
fallback; see the counterexample.) -/
theorem c3_selectionFallbackClosure (cats : List CategoryInfo) (txn : ModelTxn)
    (u : CategoryInfo)
    (hu : cats.find? (fun c => lowerStr c.name = "uncategorized") = some u)
    (hids : ∀ c ∈ cats, c.id ≠ "")
    (hsel : (∃ cid r, txn.category = CategoryAction.selectExisting cid r) ∨
      (∃ cid, txn.category = CategoryAction.uncategorizedChoice cid)) :
    ∃ c ∈ cats, ∃ rt : ResultTxn,
      (extractFromEmail cats (Except.ok ⟨true, some txn⟩)).transaction = some rt ∧
      rt.categoryId = some c.id := by
  have humem := List.mem_of_find?_eq_some hu
  have hne : ¬ ((cats.map (fun c => c.id)).length = 0) := by
    simp only [List.length_map]
    cases cats
    · simp at humem
    · simp
  have hx : (extractFromEmail cats (Except.ok ⟨true, some txn⟩)).transaction =
      some (resolveExtractedTxn txn (buildCategoryMap cats) (some u)) := by
    simp only [extractFromEmail]
    rw [hu, if_neg hne]
    rfl
  rcases hsel with ⟨cid, r, hc⟩ | ⟨cid, hc⟩
  · obtain ⟨c, hcmem, hval⟩ := selection_closure cats u cid humem hids
    refine ⟨c, hcmem, resolveExtractedTxn txn (buildCategoryMap cats) (some u), hx, ?_⟩
    unfold resolveExtractedTxn
    rw [hc]
    exact hval
  · obtain ⟨c, hcmem, hval⟩ := selection_closure cats u cid humem hids
    refine ⟨c, hcmem, resolveExtractedTxn txn (buildCategoryMap cats) (some u), hx, ?_⟩
    unfold resolveExtractedTxn
    rw [hc]
    exact hval

/-- Witness for the amended C3 at a concrete decision. -/
theorem c3_selectionFallbackClosure_witness :
    exCats.find? (fun c => lowerStr c.name = "uncategorized") =
      some ⟨"cat-unc", "Uncategorized", some "q"⟩ ∧
    (∃ c ∈ exCats, ∃ rt : ResultTxn,
      (extractFromEmail exCats (Except.ok ⟨true, some exTxn⟩)).transaction = some rt ∧
      rt.categoryId = some c.id) := by
  refine ⟨by decide, ?_⟩
  exact c3_selectionFallbackClosure exCats exTxn ⟨"cat-unc", "Uncategorized", some "q"⟩
    (by decide) (by decide) (Or.inl ⟨"cat-food", none, rfl⟩)

end Autofin

namespace Autofin

/-! ## Good-message and throwing-message step lemmas (for C7) -/

theorem contains_eq_false_of_not_mem {l : List String} {x : String} (h : x ∉ l) :
    l.contains x = false := by
  rw [Bool.eq_false_iff]
  intro hc
  exact h (List.elem_iff.mp hc)

theorem isValid_transaction_some {er : TransactionExtractionResult}
    (hv : isValidTransaction er = true) : ∃ txn, er.transaction = some txn := by
  rcases htx : er.transaction with _ | txn
  · unfold isValidTransaction at hv
    rw [htx] at hv
    cases hv
  · exact ⟨txn, rfl⟩

theorem goodStep {userId : String} {catsForAI : List CategoryInfo}
    {oracle : String → MsgOracle} {acc : BatchAcc} {m : String}
    (hg : goodMsg catsForAI (oracle m))
    (hnew : acc.processedIds.contains m = false)
    (hdup : findByEmailId acc.store m = none)
    (hid : ∀ t ∈ acc.store.transactions, t.id ≠ (oracle m).newTxnId) :
    ∃ row : TransactionRow, row.emailId = some m ∧ row.id = (oracle m).newTxnId ∧
      (stepMessage userId catsForAI oracle acc m).processedCount = acc.processedCount + 1 ∧
      (stepMessage userId catsForAI oracle acc m).failedCount = acc.failedCount ∧
      (stepMessage userId catsForAI oracle acc m).errors = acc.errors ∧
      (stepMessage userId catsForAI oracle acc m).processedIds = acc.processedIds ++ [m] ∧
      (stepMessage userId catsForAI oracle acc m).store.transactions =
        acc.store.transactions ++ [row] := by
  obtain ⟨⟨msg, hf⟩, ⟨call, hx, hv⟩, hcf⟩ := hg
  obtain ⟨txn, htx⟩ := isValid_transaction_some hv
  have hcs := categoryStep_transactions userId acc.store (oracle m) txn
  set cs := categoryStep userId acc.store (oracle m) txn with hcsdef
  set row := buildTransactionRow userId m (oracle m) msg.body cs.2 txn with hrowdef
  have hrowemail : row.emailId = some m := rfl
  have hrowid : row.id = (oracle m).newTxnId := rfl
  have hia : cs.1.transactions.any (fun t => t.id = row.id) = false := by
    rw [Bool.eq_false_iff]
    intro hc
    rcases List.any_eq_true.mp hc with ⟨t, htmem, hteq⟩
    rw [hcs] at htmem
    exact hid t htmem (by simpa [hrowid] using hteq)
  have hea : cs.1.transactions.any (fun t => t.emailId = some m) = false := by
    rw [Bool.eq_false_iff]
    intro hc
    rcases List.any_eq_true.mp hc with ⟨t, htmem, hteq⟩
    rw [hcs] at htmem
    have := List.find?_eq_none.mp hdup t htmem
    simp at hteq
    exact this (by simpa using hteq)
  have hcreate : transactionCreate cs.1 row =
      Except.ok { cs.1 with transactions := cs.1.transactions ++ [row] } := by
    unfold transactionCreate
    rw [hia]
    simp only [Bool.false_eq_true, if_false]
    rw [show row.emailId = some m from rfl]
    dsimp only
    rw [hea]
    simp only [Bool.false_eq_true, if_false]
  have hsave : saveStep userId m acc.store (oracle m) msg.body
      (extractFromEmail catsForAI call) =
      ({ cs.1 with transactions := cs.1.transactions ++ [row] }, none) := by
    unfold saveStep
    rw [hv]
    simp only [if_true]
    rw [htx]
    dsimp only
    rw [hcf]
    rw [← hcsdef, ← hrowdef, hcreate]
  have hproc : processMessage userId catsForAI acc.store m (oracle m) =
      ({ cs.1 with transactions := cs.1.transactions ++ [row] }, BodyStep.completed,
        ⟨true, msg.labelIds.contains "UNREAD"⟩) := by
    simp only [processMessage, hdup, hf, hx]
    rw [hsave]
  have hstep : stepMessage userId catsForAI oracle acc m =
      { acc with
        store := { cs.1 with transactions := cs.1.transactions ++ [row] }
        processedIds := acc.processedIds ++ [m]
        processedCount := acc.processedCount + 1
        extractedIds := acc.extractedIds ++ [m]
        markedIds :=
          if msg.labelIds.contains "UNREAD" then acc.markedIds ++ [m] else acc.markedIds } := by
    simp only [stepMessage, hnew, Bool.false_eq_true, if_false]
    rw [hproc]
    simp
  refine ⟨row, hrowemail, hrowid, ?_, ?_, ?_, ?_, ?_⟩ <;> rw [hstep]
  rw [show ({ cs.1 with transactions := cs.1.transactions ++ [row] } : Store).transactions =
    cs.1.transactions ++ [row] from rfl, hcs]

theorem throwStep {userId : String} {catsForAI : List CategoryInfo}
    {oracle : String → MsgOracle} {acc : BatchAcc} {M : String}
    {msg : FetchedMessage} {e : String}
    (hnew : acc.processedIds.contains M = false)
    (hdup : findByEmailId acc.store M = none)
    (hf : (oracle M).fetch = Except.ok msg)
    (hx : (oracle M).extract = ExtractCall.throwsPre e)
    (h404 : (containsSub e "404" || containsSub e "notFound") = false) :
    stepMessage userId catsForAI oracle acc M =
      { acc with
        processedIds := acc.processedIds ++ [M]
        extractedIds := acc.extractedIds ++ [M]
        failedCount := acc.failedCount + 1
        errors := acc.errors ++ [(M, e)] } := by
  simp only [stepMessage, hnew, Bool.false_eq_true, if_false]
  simp only [processMessage, hdup, hf, hx]
  simp only [h404, Bool.false_eq_true, if_false]
  simp

end Autofin

namespace Autofin

theorem goodSegment (userId : String) (catsForAI : List CategoryInfo)
    (oracle : String → MsgOracle) :
    ∀ (msgs : List String) (acc : BatchAcc),
      (∀ m ∈ msgs, goodMsg catsForAI (oracle m)) →
      (∀ m ∈ msgs, m ∉ acc.processedIds) →
      (∀ m ∈ msgs, findByEmailId acc.store m = none) →
      (∀ m ∈ msgs, ∀ t ∈ acc.store.transactions, t.id ≠ (oracle m).newTxnId) →
      msgs.Nodup →
      (msgs.map (fun m => (oracle m).newTxnId)).Nodup →
      (msgs.foldl (stepMessage userId catsForAI oracle) acc).processedCount =
          acc.processedCount + msgs.length ∧
      (msgs.foldl (stepMessage userId catsForAI oracle) acc).failedCount = acc.failedCount ∧
      (msgs.foldl (stepMessage userId catsForAI oracle) acc).errors = acc.errors ∧
      (msgs.foldl (stepMessage userId catsForAI oracle) acc).processedIds =
          acc.processedIds ++ msgs ∧
      ∃ rows : List TransactionRow,
        (msgs.foldl (stepMessage userId catsForAI oracle) acc).store.transactions =
          acc.store.transactions ++ rows ∧
        rows.map (fun r => r.emailId) = msgs.map some ∧
        rows.map (fun r => r.id) = msgs.map (fun m => (oracle m).newTxnId) := by
  intro msgs
  induction msgs with
  | nil =>
    intro acc _ _ _ _ _ _
    exact ⟨by simp, rfl, rfl, by simp, [], by simp, rfl, rfl⟩
  | cons m ms ih =>
    intro acc hgood hnewmem hfresh hid hnodup hmapnodup
    obtain ⟨row, hre, hri, hpc, hfc, herr, hpids, hstore⟩ :=
      @goodStep userId catsForAI oracle acc m (hgood m (List.mem_cons_self _ _))
        (contains_eq_false_of_not_mem (hnewmem m (List.mem_cons_self _ _)))
        (hfresh m (List.mem_cons_self _ _)) (hid m (List.mem_cons_self _ _))
    have hm_notin_ms : m ∉ ms := (List.nodup_cons.mp hnodup).1
    have hmapcons : ((oracle m).newTxnId ∉ ms.map (fun x => (oracle x).newTxnId)) ∧
        (ms.map (fun x => (oracle x).newTxnId)).Nodup := by
      rw [List.map_cons] at hmapnodup
      exact List.nodup_cons.mp hmapnodup
    have hgood' : ∀ x ∈ ms, goodMsg catsForAI (oracle x) :=
      fun x hx => hgood x (List.mem_cons_of_mem _ hx)
    have hnewmem' : ∀ x ∈ ms,
        x ∉ (stepMessage userId catsForAI oracle acc m).processedIds := by
      intro x hx hmem
      rw [hpids] at hmem
      rcases List.mem_append.mp hmem with h1 | h2
      · exact hnewmem x (List.mem_cons_of_mem _ hx) h1
      · exact hm_notin_ms ((List.mem_singleton.mp h2) ▸ hx)
    have hfresh' : ∀ x ∈ ms,
        findByEmailId (stepMessage userId catsForAI oracle acc m).store x = none := by
      intro x hx
      have h1 := hfresh x (List.mem_cons_of_mem _ hx)
      have hxm : x ≠ m := fun hxe => hm_notin_ms (hxe ▸ hx)
      unfold findByEmailId at h1 ⊢
      rw [hstore, List.find?_append, h1]
      simp [List.find?, hre, hxm, Ne.symm hxm]
    have hid' : ∀ x ∈ ms,
        ∀ t ∈ (stepMessage userId catsForAI oracle acc m).store.transactions,
          t.id ≠ (oracle x).newTxnId := by
      intro x hx t ht
      rw [hstore] at ht
      rcases List.mem_append.mp ht with h1 | h2
      · exact hid x (List.mem_cons_of_mem _ hx) t h1
      · rw [List.mem_singleton.mp h2, hri]
        intro heq
        exact hmapcons.1 (heq ▸ List.mem_map_of_mem _ hx)
    obtain ⟨hpc2, hfc2, herr2, hpids2, rows2, hstore2, hrem2, hrid2⟩ :=
      ih (stepMessage userId catsForAI oracle acc m) hgood' hnewmem' hfresh' hid'
        (List.nodup_cons.mp hnodup).2 hmapcons.2
    refine ⟨?_, ?_, ?_, ?_, row :: rows2, ?_, ?_, ?_⟩
    · rw [List.foldl_cons, hpc2, hpc]
      simp only [List.length_cons]
      omega
    · rw [List.foldl_cons, hfc2, hfc]
    · rw [List.foldl_cons, herr2, herr]
    · rw [List.foldl_cons, hpids2, hpids]
      simp [List.append_assoc]
    · rw [List.foldl_cons, hstore2, hstore]
      simp [List.append_assoc]
    · simp only [List.map_cons, hrem2, hre]
    · simp only [List.map_cons, hrid2, hri]

end Autofin

namespace Autofin

/-! ## Claim C7 (amended) -/

theorem foldPartialFailure (userId : String) (cats : List CategoryInfo)
    (oracle : String → MsgOracle) (st : Store) (l1 l2 : List String) (M : String)
    (msg : FetchedMessage) (e : String)
    (hgood : ∀ m ∈ l1 ++ l2, goodMsg cats (oracle m))
    (hfresh : ∀ m ∈ l1 ++ M :: l2, findByEmailId st m = none)
    (hid : ∀ m ∈ l1 ++ M :: l2, ∀ t ∈ st.transactions, t.id ≠ (oracle m).newTxnId)
    (hnodup : (l1 ++ M :: l2).Nodup)
    (hmapnodup : ((l1 ++ M :: l2).map (fun m => (oracle m).newTxnId)).Nodup)
    (hMf : (oracle M).fetch = Except.ok msg)
    (hMx : (oracle M).extract = ExtractCall.throwsPre e)
    (h404 : (containsSub e "404" || containsSub e "notFound") = false) :
    ((l1 ++ M :: l2).foldl (stepMessage userId cats oracle)
        ⟨st, [], 0, 0, [], [], []⟩).processedCount = l1.length + l2.length ∧
    ((l1 ++ M :: l2).foldl (stepMessage userId cats oracle)
        ⟨st, [], 0, 0, [], [], []⟩).failedCount = 1 ∧
    ((l1 ++ M :: l2).foldl (stepMessage userId cats oracle)
        ⟨st, [], 0, 0, [], [], []⟩).errors = [(M, e)] ∧
    ∀ m ∈ l1 ++ l2,
      ∃ row ∈ ((l1 ++ M :: l2).foldl (stepMessage userId cats oracle)
        ⟨st, [], 0, 0, [], [], []⟩).store.transactions, row.emailId = some m := by
  have hdisj : l1.Disjoint (M :: l2) := List.disjoint_of_nodup_append hnodup
  have hMnotl1 : M ∉ l1 := fun h => hdisj h (List.mem_cons_self _ _)
  have hMnotl2 : M ∉ l2 :=
    (List.nodup_cons.mp (List.Nodup.of_append_right hnodup)).1
  have hmapdisj :
      (l1.map (fun m => (oracle m).newTxnId)).Disjoint
        ((M :: l2).map (fun m => (oracle m).newTxnId)) := by
    apply List.disjoint_of_nodup_append
    rw [← List.map_append]
    exact hmapnodup
  obtain ⟨hpc1, hfc1, herr1, hpids1, rows1, hst1, hre1, hri1⟩ :=
    goodSegment userId cats oracle l1 ⟨st, [], 0, 0, [], [], []⟩
      (fun m hm => hgood m (List.mem_append_left _ hm))
      (fun m _ h => (List.not_mem_nil m) h)
      (fun m hm => hfresh m (List.mem_append_left _ hm))
      (fun m hm => hid m (List.mem_append_left _ hm))
      (List.Nodup.of_append_left hnodup)
      (by
        apply List.Nodup.of_append_left
        rw [← List.map_append]
        exact hmapnodup)
  have hrows1_email : ∀ r ∈ rows1, ∀ x, r.emailId = some x → x ∈ l1 := by
    intro r hr x hx
    have hmm : r.emailId ∈ rows1.map (fun r => r.emailId) := List.mem_map_of_mem _ hr
    rw [hre1] at hmm
    rcases List.mem_map.mp hmm with ⟨y, hy, hye⟩
    rw [hx] at hye
    injection hye with hye2
    exact hye2 ▸ hy
  have hrows1_id : ∀ r ∈ rows1, r.id ∈ l1.map (fun m => (oracle m).newTxnId) := by
    intro r hr
    have hmm : r.id ∈ rows1.map (fun r => r.id) := List.mem_map_of_mem _ hr
    rw [hri1] at hmm
    exact hmm
  have hfind_rows1 : ∀ x, x ∉ l1 →
      rows1.find? (fun t => t.emailId = some x) = none := by
    intro x hx
    rw [List.find?_eq_none]
    intro r hr hcontra
    simp only [decide_eq_true_eq] at hcontra
    exact hx (hrows1_email r hr x hcontra)
  set A1 := l1.foldl (stepMessage userId cats oracle) ⟨st, [], 0, 0, [], [], []⟩ with hA1
  have hnewM : A1.processedIds.contains M = false := by
    rw [hpids1]
    exact contains_eq_false_of_not_mem (by simpa using hMnotl1)
  have hdupM : findByEmailId A1.store M = none := by
    unfold findByEmailId
    rw [hst1, List.find?_append]
    have h1 := hfresh M (List.mem_append_right _ (List.mem_cons_self _ _))
    unfold findByEmailId at h1
    rw [h1, hfind_rows1 M hMnotl1]
    rfl
  have hthrow := @throwStep userId cats oracle A1 M msg e hnewM hdupM hMf hMx h404
  set A2 : BatchAcc :=
    { A1 with
      processedIds := A1.processedIds ++ [M]
      extractedIds := A1.extractedIds ++ [M]
      failedCount := A1.failedCount + 1
      errors := A1.errors ++ [(M, e)] } with hA2
  have hA2store : A2.store.transactions = st.transactions ++ rows1 := hst1
  obtain ⟨hpc3, hfc3, herr3, hpids3, rows3, hst3, hre3, hri3⟩ :=
    goodSegment userId cats oracle l2 A2
      (fun m hm => hgood m (List.mem_append_right _ hm))
      (by
        intro x hx hmem
        rw [hA2] at hmem
        simp only at hmem
        rw [hpids1] at hmem
        simp only [List.nil_append] at hmem
        rcases List.mem_append.mp hmem with h1 | h2
        · exact hdisj h1 (List.mem_cons_of_mem _ hx)
        · exact hMnotl2 ((List.mem_singleton.mp h2) ▸ hx))
      (by
        intro x hx
        unfold findByEmailId
        rw [hA2store, List.find?_append]
        have h1 := hfresh x (List.mem_append_right _ (List.mem_cons_of_mem _ hx))
        unfold findByEmailId at h1
        rw [h1, hfind_rows1 x (fun hxl1 => hdisj hxl1 (List.mem_cons_of_mem _ hx))]
        rfl)
      (by
        intro x hx t ht
        rw [hA2store] at ht
        rcases List.mem_append.mp ht with h1 | h2
        · exact hid x (List.mem_append_right _ (List.mem_cons_of_mem _ hx)) t h1
        · intro heq
          exact hmapdisj (hrows1_id t h2)
            (heq ▸ List.mem_map_of_mem _ (List.mem_cons_of_mem _ hx)))
      (List.nodup_cons.mp (List.Nodup.of_append_right hnodup)).2
      (by
        have hall : (l1.map (fun m => (oracle m).newTxnId) ++
            (M :: l2).map (fun m => (oracle m).newTxnId)).Nodup := by
          rw [← List.map_append]
          exact hmapnodup
        have h2 := List.Nodup.of_append_right hall
        rw [List.map_cons] at h2
        exact (List.nodup_cons.mp h2).2)
  have hsplit : (l1 ++ M :: l2).foldl (stepMessage userId cats oracle)
      ⟨st, [], 0, 0, [], [], []⟩ = l2.foldl (stepMessage userId cats oracle) A2 := by
    rw [List.foldl_append, List.foldl_cons, ← hA1, hthrow]
  rw [hsplit]
  refine ⟨?_, ?_, ?_, ?_⟩
  · rw [hpc3, hA2]
    simp only
    rw [hpc1]
    simp only [List.nil_append]
    omega
  · rw [hfc3, hA2]
    simp only
    rw [hfc1]
  · rw [herr3, hA2]
    simp only
    rw [herr1]
    simp
  · intro m hm
    have hstfinal : (l2.foldl (stepMessage userId cats oracle) A2).store.transactions =
        (st.transactions ++ rows1) ++ rows3 := by
      rw [hst3, hA2store]
    rw [hstfinal]
    rcases List.mem_append.mp hm with h1 | h2
    · have hmm : some m ∈ rows1.map (fun r => r.emailId) := by
        rw [hre1]
        exact List.mem_map_of_mem _ h1
      rcases List.mem_map.mp hmm with ⟨r, hr, hre⟩
      exact ⟨r, List.mem_append_left _ (List.mem_append_right _ hr), hre⟩
    · have hmm : some m ∈ rows3.map (fun r => r.emailId) := by
        rw [hre3]
        exact List.mem_map_of_mem _ h2
      rcases List.mem_map.mp hmm with ⟨r, hr, hre⟩
      exact ⟨r, List.mem_append_right _ hr, hre⟩

theorem c7_partialFailureIsolation (userId : String) (notification : GmailNotification)
    (stored : Option String) (st : Store)
    (gh : String → Except String (List HistoryEntry)) (oracle : String → MsgOracle)
    (entry : HistoryEntry) (l1 l2 : List String) (M : String)
    (msg : FetchedMessage) (e : String)
    (hgh : gh (historyIdToUse stored notification) = Except.ok [entry])
    (hmsgs : entry.messagesAdded = l1 ++ M :: l2)
    (hgood : ∀ m ∈ l1 ++ l2,
      goodMsg ((findAllForUser st userId).map (fun c => CategoryInfo.mk c.id c.name c.icon))
        (oracle m))
    (hfresh : ∀ m ∈ l1 ++ M :: l2, findByEmailId st m = none)
    (hid : ∀ m ∈ l1 ++ M :: l2, ∀ t ∈ st.transactions, t.id ≠ (oracle m).newTxnId)
    (hnodup : (l1 ++ M :: l2).Nodup)
    (hmapnodup : ((l1 ++ M :: l2).map (fun m => (oracle m).newTxnId)).Nodup)
    (hMf : (oracle M).fetch = Except.ok msg)
    (hMx : (oracle M).extract = ExtractCall.throwsPre e)
    (h404 : (containsSub e "404" || containsSub e "notFound") = false) :
    (processNotification userId notification stored st gh oracle).result.processedCount =
        l1.length + l2.length ∧
    (processNotification userId notification stored st gh oracle).result.failedCount = 1 ∧
    (processNotification userId notification stored st gh oracle).result.errors = [(M, e)] ∧
    ∀ m ∈ l1 ++ l2,
      ∃ row ∈ (processNotification userId notification stored st gh oracle).store.transactions,
        row.emailId = some m := by
  have hacc : batchAccOf userId st oracle [entry] =
      (l1 ++ M :: l2).foldl
        (stepMessage userId
          ((findAllForUser st userId).map (fun c => CategoryInfo.mk c.id c.name c.icon)) oracle)
        ⟨st, [], 0, 0, [], [], []⟩ := by
    simp only [batchAccOf]
    rw [List.foldl_cons, List.foldl_nil, hmsgs]
  obtain ⟨h1, h2, h3, h4⟩ := foldPartialFailure userId
    ((findAllForUser st userId).map (fun c => CategoryInfo.mk c.id c.name c.icon))
    oracle st l1 l2 M msg e hgood hfresh hid hnodup hmapnodup hMf hMx h404
  rw [processNotification_ok_eq hgh]
  dsimp only
  rw [hacc]
  exact ⟨h1, h2, h3, h4⟩

/-- Witness for the amended C7: a three-message batch where only the middle
message's extraction call throws ends with two persisted messages, one
failure, and one error entry. -/
theorem c7_partialFailureIsolation_witness :
    (⟨["m1", "m2", "m3"], [], [], []⟩ : HistoryEntry).messagesAdded =
      ["m1"] ++ "m2" :: ["m3"] ∧
    (processNotification "u1" exNotif none exStore
      (fun _ => Except.ok [⟨["m1", "m2", "m3"], [], [], []⟩])
      exThrowOracle).result.processedCount = 2 ∧
    (processNotification "u1" exNotif none exStore
      (fun _ => Except.ok [⟨["m1", "m2", "m3"], [], [], []⟩])
      exThrowOracle).result.failedCount = 1 ∧
    (processNotification "u1" exNotif none exStore
      (fun _ => Except.ok [⟨["m1", "m2", "m3"], [], [], []⟩])
      exThrowOracle).result.errors = [("m2", "ai model init failed")] := by
  refine ⟨rfl, ?_⟩
  have h := c7_partialFailureIsolation "u1" exNotif none exStore
    (fun _ => Except.ok [⟨["m1", "m2", "m3"], [], [], []⟩]) exThrowOracle
    ⟨["m1", "m2", "m3"], [], [], []⟩ ["m1"] ["m3"] "m2" exMsg "ai model init failed"
    rfl rfl
    (by
      intro m hm
      fin_cases hm
      · exact ⟨⟨exMsg, rfl⟩, ⟨Except.ok exOut, rfl, by decide⟩, rfl⟩
      · exact ⟨⟨exMsg, rfl⟩, ⟨Except.ok exOut, rfl, by decide⟩, rfl⟩)
    (by decide) (by decide) (by decide) (by decide) rfl rfl (by decide)
  exact ⟨h.1, h.2.1, h.2.2.1⟩

end Autofin

namespace Autofin

/-! ## Claim C6 (amended) -/

/-- Amended C6: a webhook invocation either leaves each stored token row
unchanged or sets its cursor to exactly the cursor value reported by the
provider in the decoded notification - the cursor is updated only to
provider-reported values.  (No monotonicity guard exists; see the
counterexample.) -/
theorem c6_cursorOnlyProviderValues (payload : WebhookPayload) (ts : TokenStore)
    (deps : WebhookDeps) (i : Nat) (r2 : GmailOAuthToken)
    (h : (webhookPost payload ts deps).tokens.rows.get? i = some r2) :
    ∃ r, ts.rows.get? i = some r ∧
      (r2 = r ∨ ∃ n, payload = WebhookPayload.notif n ∧
        r2 = { r with historyId := some n.historyId }) := by
  cases payload with
  | invalidJson => exact ⟨r2, h, Or.inl rfl⟩
  | missingData => exact ⟨r2, h, Or.inl rfl⟩
  | undecodable => exact ⟨r2, h, Or.inl rfl⟩
  | notif n =>
    unfold webhookPost at h
    rcases hlf : deps.lookupFault with _ | e2
    · rw [hlf] at h
      dsimp only at h
      rcases hfe : findByEmailAddress ts n.emailAddress with _ | token
      · rw [hfe] at h
        exact ⟨r2, h, Or.inl rfl⟩
      · rw [hfe] at h
        dsimp only at h
        by_cases hs : (processNotification token.userId n token.historyId deps.store
            deps.getHistoryOutcome deps.oracle).result.success = true
        · rw [if_pos hs] at h
          dsimp only at h
          rw [processNotification_historyId] at h
          unfold updateHistoryIdByEmail at h
          dsimp only at h
          rw [List.get?_map] at h
          rcases hr : ts.rows.get? i with _ | r
          · rw [hr] at h
            cases h
          · rw [hr] at h
            simp only [Option.map_some'] at h
            refine ⟨r, rfl, ?_⟩
            by_cases he : r.emailAddress = n.emailAddress
            · rw [if_pos he] at h
              injection h with h2
              exact Or.inr ⟨n, rfl, h2.symm⟩
            · rw [if_neg he] at h
              injection h with h2
              exact Or.inl h2.symm
        · rw [Bool.not_eq_true] at hs
          rw [hs] at h
          simp only [Bool.false_eq_true, if_false] at h
          exact ⟨r2, h, Or.inl rfl⟩
    · rw [hlf] at h
      exact ⟨r2, h, Or.inl rfl⟩

/-- Witness for the amended C6 on a concrete updated row. -/
theorem c6_cursorOnlyProviderValues_witness :
    (webhookPost (WebhookPayload.notif exNotif) exTokens exDeps).tokens.rows.get? 0 =
      some ⟨"u1", "a@x", some "500"⟩ ∧
    ∃ r, exTokens.rows.get? 0 = some r ∧
      ((⟨"u1", "a@x", some "500"⟩ : GmailOAuthToken) = r ∨
        ∃ n, WebhookPayload.notif exNotif = WebhookPayload.notif n ∧
          (⟨"u1", "a@x", some "500"⟩ : GmailOAuthToken) =
            { r with historyId := some n.historyId }) := by
  refine ⟨by decide, ?_⟩
  exact c6_cursorOnlyProviderValues (WebhookPayload.notif exNotif) exTokens exDeps 0
    ⟨"u1", "a@x", some "500"⟩ (by decide)

end Autofin
